import Mathlib

/-!
Verification development for the enrichment orchestration pipeline of the
backend repository (FastAPI + Neo4j + Wikidata SPARQL).

The Python sources embedded here (shallowly, as pure Lean functions with
explicit state passing) are:
  * `app/services/enrichment/sparql_service.py` — the external resolver
    client: `run_sparql` (retry / backoff loop) and the query helpers
    (`find_qid_by_label`, `get_person_basic_by_qid`, ..., `get_event_qid_by_name`,
    `get_event_basic_by_qid`).
  * `app/services/enrichment/person_enrichment_service.py` —
    `enrich_person_by_name` and `preview_person_enrichment`.
  * `app/services/enrichment/event_enrichment.py` — `enrich_event_by_name`.
  * `app/routers/enrichment/person_enrichment.py` — the run controller:
    `save_progress` / `load_progress` (checkpoint store), `fetch_persons_batch`
    (candidate source), `background_enrich_all` (the batch loop),
    `start_fast_enrich_all`, `resume_enrichment`, `stop_enrichment`.

Modelling conventions:
  * HTTP responses of the external service are an environment
    `HttpEnv : SparqlQuery → Nat → HttpResp` giving, for each query and each
    attempt index, the response of that attempt.
  * Python exceptions are `Except PyErr`; a raised exception propagating out
    of a function is `Except.error`.
  * The Neo4j store is an explicit list of person (or event) records; Cypher
    reads become list operations (`filter` / `drop` / `take`), Cypher `SET`
    updates become `List.map` updates keyed by the entity id.
  * Wall-clock sleeps (backoff waits, inter-batch delay) have no observable
    effect in this embedding and are dropped; iteration and attempt counts,
    which the claims are about, are tracked exactly.
-/

set_option maxHeartbeats 1000000

namespace Backend

/-! ## External resolver client: sparql_service.py -/

/-- One SPARQL result binding row, modelling the JSON object `r` in
`data['results']['bindings']`: a finite map from variable name to the
`['value']` string of that binding. -/
abbrev Row := List (String × String)

/-- Models `r.get('var', {}).get('value')` on a binding row. -/
def rowGet (r : Row) (k : String) : Option String :=
  (r.find? (fun q => q.1 = k)).map (fun q => q.2)

/-- Parsed body of a successful SPARQL response (`resp.json()`), holding
`data['results']['bindings']`. -/
structure SparqlData where
  bindings : List Row
deriving DecidableEq, Repr

/-- Outcome of one `requests.get` attempt: a 2xx response with parsed JSON,
an HTTP error status (so `raise_for_status` raises `HTTPError`), or a
`requests.exceptions.RequestException` (connection error / timeout). -/
inductive HttpResp
  | ok (d : SparqlData)
  | httpStatus (code : Nat)
  | netErr
deriving DecidableEq, Repr

/-- A Python value that may be a string or a list of strings.  Needed because
`enrich_event_by_name` passes a *list* where a string qid is expected; the
dynamic typing of the source is made explicit here. -/
inductive PyVal
  | str (s : String)
  | strList (l : List String)
deriving DecidableEq, Repr

/-- Python exceptions relevant to the embedded code paths. -/
inductive PyErr
  | httpError (code : Nat)
  | attributeErrNone
  | keyErr (k : String)
deriving DecidableEq, Repr

/-- The retry loop body of `run_sparql` (sparql_service.py lines 17-33),
structurally recursive on the number of attempts left.  Arguments: the
response of each attempt, attempts left, current attempt index, requests
issued so far.  Returns the Python outcome (`Except.error c` models the
`raise` of a non-transient `HTTPError` with status `c`; `Except.ok none`
is the `return None` sentinel after exhaustion; `Except.ok (some d)` is
`return resp.json()`) paired with the total number of HTTP requests issued.
Backoff sleeps are dropped (no observable effect). -/
def runSparqlAux (resp : Nat → HttpResp) : Nat → Nat → Nat →
    Except Nat (Option SparqlData) × Nat
  | 0, _, reqs => (Except.ok none, reqs)
  | left + 1, attempt, reqs =>
    match resp attempt with
    | HttpResp.ok d => (Except.ok (some d), reqs + 1)
    | HttpResp.httpStatus c =>
      if c = 429 ∨ c = 503 ∨ c = 500 then
        runSparqlAux resp left (attempt + 1) (reqs + 1)
      else (Except.error c, reqs + 1)
    | HttpResp.netErr => runSparqlAux resp left (attempt + 1) (reqs + 1)

/-- Embeds `run_sparql(endpoint, query, timeout, retries, backoff)`:
`for attempt in range(retries)` with transient codes 429/503/500 and
request exceptions retried, other HTTP errors raised, and `None` returned
on exhaustion.  The pair's second component counts HTTP requests issued. -/
def run_sparql (resp : Nat → HttpResp) (retries : Nat) :
    Except Nat (Option SparqlData) × Nat :=
  runSparqlAux resp retries 0 0

/-- The distinct SPARQL queries built by the helpers of sparql_service.py,
keyed by the data interpolated into the query text.  `eventBasic` takes a
`PyVal` because its Python caller may interpolate a list (see
`enrich_event_by_name`). -/
inductive SparqlQuery
  | findQid (name : String) (limit : Nat)
  | personBasic (qid : String)
  | positions (qid : String)
  | dynasty (qid : String)
  | causeKiller (qid : String)
  | events (qid : String)
  | deathInfo (qid : String)
  | conflicts (qid : String)
  | awards (qid : String)
  | works (qid : String)
  | alliances (qid : String)
  | ranks (qid : String)
  | orders (qid : String)
  | convicted (qid : String)
  | eventQid (name : String) (limit : Nat)
  | eventBasic (qidArg : PyVal)
deriving DecidableEq, Repr

/-- Environment: the external service's response to each query at each
attempt index. -/
abbrev HttpEnv := SparqlQuery → Nat → HttpResp

/-- A helper calling `run_sparql(WIKIDATA_ENDPOINT, q)` with the default
`retries=5`, keeping only the Python-visible outcome. -/
def sparqlCall (env : HttpEnv) (q : SparqlQuery) : Except Nat (Option SparqlData) :=
  (run_sparql (env q) 5).1

/-- Models Python's `str.lower()` (the embedding maps `Char.toLower` over
the character data; `String.toLower` itself is definitionally opaque in
Lean, with identical behaviour on the ASCII names compared here). -/
def pyLower (s : String) : String := ⟨s.data.map Char.toLower⟩

/-- Models `v.split('/')[-1]` at the character level (the suffix after the
last '/' of `v`; the whole of `v` when it has no slash — exactly Python's
behaviour, including the empty suffix for a trailing slash). -/
def lastSlashComponent (v : String) : String :=
  ⟨v.data.foldl (fun acc c => if c = '/' then [] else acc ++ [c]) []⟩

/-- Embeds `find_qid_by_label(name, limit)` (sparql_service.py lines 38-49).
This is the one helper that checks `if data is None: return []` before
touching the result. -/
def find_qid_by_label (env : HttpEnv) (name : String) (limit : Nat) :
    Except PyErr (List String) :=
  match sparqlCall env (SparqlQuery.findQid name limit) with
  | Except.error c => Except.error (PyErr.httpError c)
  | Except.ok none => Except.ok []
  | Except.ok (some d) =>
    d.bindings.mapM (fun r =>
      match rowGet r "person" with
      | none => Except.error (PyErr.keyErr "person")
      | some v => Except.ok (lastSlashComponent v))

/-- Shared shape of every *attribute-fetch* helper in sparql_service.py:
run the query, then immediately evaluate
`data.get('results', {}).get('bindings', [])`.  When `run_sparql` returned
the `None` sentinel this attribute access raises (`AttributeError` on
`NoneType`), modelled as `Except.error PyErr.attributeErrNone`; none of
these helpers guards against `None`. -/
def fetchBindings (env : HttpEnv) (q : SparqlQuery) : Except PyErr (List Row) :=
  match sparqlCall env q with
  | Except.error c => Except.error (PyErr.httpError c)
  | Except.ok none => Except.error PyErr.attributeErrNone
  | Except.ok (some d) => Except.ok d.bindings

/-- Result shape of `get_person_basic_by_qid`. -/
structure PersonBasic where
  qid : String
  description : Option String
  image : Option String
deriving DecidableEq, Repr

/-- Embeds `get_person_basic_by_qid(qid)` (sparql_service.py lines 51-68):
no `None` guard, returns `None` on empty bindings, else the first row's
description/image. -/
def get_person_basic_by_qid (env : HttpEnv) (qid : String) :
    Except PyErr (Option PersonBasic) := do
  let rows ← fetchBindings env (SparqlQuery.personBasic qid)
  match rows with
  | [] => return none
  | row :: _ => return some ⟨qid, rowGet row "description", rowGet row "image"⟩

/-- One entry of `get_person_positions`. -/
structure PosEntry where
  posLabel : Option String
  posStart : Option String
  posEnd : Option String
deriving DecidableEq, Repr

/-- Embeds `get_person_positions(qid)`: one output entry per row. -/
def get_person_positions (env : HttpEnv) (qid : String) :
    Except PyErr (List PosEntry) := do
  let rows ← fetchBindings env (SparqlQuery.positions qid)
  return rows.map (fun r => ⟨rowGet r "positionLabel", rowGet r "start", rowGet r "end"⟩)

/-- Embeds `get_person_dynasty(qid)`: keeps `dynastyLabel` values not
starting with `Q`. -/
def get_person_dynasty (env : HttpEnv) (qid : String) :
    Except PyErr (List String) := do
  let rows ← fetchBindings env (SparqlQuery.dynasty qid)
  return (rows.filterMap (fun r => rowGet r "dynastyLabel")).filter
    (fun l => ¬ l.startsWith "Q")

/-- Result of `get_person_cause_and_killer`. -/
structure CauseKiller where
  cause : Option String
  killer : Option String
deriving DecidableEq, Repr

/-- Embeds `get_person_cause_and_killer(qid)`: defaults on empty bindings,
else first row. -/
def get_person_cause_and_killer (env : HttpEnv) (qid : String) :
    Except PyErr CauseKiller := do
  let rows ← fetchBindings env (SparqlQuery.causeKiller qid)
  match rows with
  | [] => return ⟨none, none⟩
  | r :: _ => return ⟨rowGet r "causeLabel", rowGet r "killerLabel"⟩

/-- Embeds `get_person_events(qid)`. -/
def get_person_events (env : HttpEnv) (qid : String) :
    Except PyErr (List String) := do
  let rows ← fetchBindings env (SparqlQuery.events qid)
  return rows.filterMap (fun r => rowGet r "eventLabel")

/-- Result of `get_person_death_info`; the source's `{}` default is both
fields absent. -/
structure DeathInfo where
  deathDate : Option String
  deathPlace : Option String
deriving DecidableEq, Repr

/-- Embeds `get_person_death_info(qid)`. -/
def get_person_death_info (env : HttpEnv) (qid : String) :
    Except PyErr DeathInfo := do
  let rows ← fetchBindings env (SparqlQuery.deathInfo qid)
  match rows with
  | [] => return ⟨none, none⟩
  | r :: _ => return ⟨rowGet r "deathDate", rowGet r "deathPlaceLabel"⟩

/-- Embeds `get_person_conflicts(qid)`: entries with a `conflictLabel`,
as (label, start, end). -/
def get_person_conflicts (env : HttpEnv) (qid : String) :
    Except PyErr (List (String × Option String × Option String)) := do
  let rows ← fetchBindings env (SparqlQuery.conflicts qid)
  return rows.filterMap (fun r => (rowGet r "conflictLabel").map
    (fun c => (c, rowGet r "startTime", rowGet r "endTime")))

/-- Embeds `get_person_awards(qid)`: entries with an `awardLabel`, as
(award, year). -/
def get_person_awards (env : HttpEnv) (qid : String) :
    Except PyErr (List (String × Option String)) := do
  let rows ← fetchBindings env (SparqlQuery.awards qid)
  return rows.filterMap (fun r => (rowGet r "awardLabel").map
    (fun a => (a, rowGet r "year")))

/-- Embeds `get_person_notable_works(qid)`: entries with a `workLabel`. -/
def get_person_notable_works (env : HttpEnv) (qid : String) :
    Except PyErr (List (String × Option String)) := do
  let rows ← fetchBindings env (SparqlQuery.works qid)
  return rows.filterMap (fun r => (rowGet r "workLabel").map
    (fun w => (w, rowGet r "year")))

/-- Embeds `get_person_alliances(qid)`: entries with a `partyLabel`. -/
def get_person_alliances (env : HttpEnv) (qid : String) :
    Except PyErr (List (String × Option String × Option String)) := do
  let rows ← fetchBindings env (SparqlQuery.alliances qid)
  return rows.filterMap (fun r => (rowGet r "partyLabel").map
    (fun a => (a, rowGet r "startTime", rowGet r "endTime")))

/-- Embeds `get_person_military_rank(qid)`. -/
def get_person_military_rank (env : HttpEnv) (qid : String) :
    Except PyErr (List String) := do
  let rows ← fetchBindings env (SparqlQuery.ranks qid)
  return rows.filterMap (fun r => rowGet r "rankLabel")

/-- Embeds `get_person_religious_orders(qid)`. -/
def get_person_religious_orders (env : HttpEnv) (qid : String) :
    Except PyErr (List String) := do
  let rows ← fetchBindings env (SparqlQuery.orders qid)
  return rows.filterMap (fun r => rowGet r "orderLabel")

/-- Embeds `get_person_convicted_of(qid)`. -/
def get_person_convicted_of (env : HttpEnv) (qid : String) :
    Except PyErr (List String) := do
  let rows ← fetchBindings env (SparqlQuery.convicted qid)
  return rows.filterMap (fun r => rowGet r "crimeLabel")

/-- Embeds `get_event_qid_by_name(name, limit=1)` (sparql_service.py lines
148-157).  Unlike `find_qid_by_label`, this identity-resolution helper has
*no* `None` guard: an exhausted `run_sparql` raises here too. -/
def get_event_qid_by_name (env : HttpEnv) (name : String) (limit : Nat) :
    Except PyErr (List String) := do
  let rows ← fetchBindings env (SparqlQuery.eventQid name limit)
  rows.mapM (fun r =>
    match rowGet r "event" with
    | none => Except.error (PyErr.keyErr "event")
    | some v => Except.ok (lastSlashComponent v))

/-- Embeds `get_event_basic_by_qid(qid)`.  The `qidArg` is a `PyVal`: its
Python caller `enrich_event_by_name` passes a *list* here, which the source
interpolates into the query text unchanged. -/
def get_event_basic_by_qid (env : HttpEnv) (qidArg : PyVal) :
    Except PyErr (Option (PyVal × Option String × Option String)) := do
  let rows ← fetchBindings env (SparqlQuery.eventBasic qidArg)
  match rows with
  | [] => return none
  | row :: _ => return some (qidArg, rowGet row "description", rowGet row "image")

/-! ## Entity enricher: person_enrichment_service.py and event_enrichment.py -/

/-- A Person node of the Neo4j store, restricted to the properties the
embedded code paths read or write.  `upsert_person_enrichment` also merges
relationship nodes/edges (positions, conflicts, ...); those live outside
this record and no embedded read depends on them. -/
structure NPerson where
  name : Option String
  articleId : Option Nat
  fullName : Option String
  wikidataQid : Option String
  description : Option String
  imageUrl : Option String
deriving DecidableEq, Repr

/-- An Event node of the Neo4j store.  `wikidataQid` is a `PyVal` because
`upsert_event_enrichment` stores whatever Python value its caller passes
(see `enrich_event_by_name`). -/
structure NEvent where
  name : Option String
  eventId : Option Nat
  wikidataQid : Option PyVal
  description : Option String
  imageUrl : Option String
deriving DecidableEq, Repr

/-- Statuses appearing in the result dicts of the enrichment services and of
`enrich_single_person`. -/
inductive EnrichStatus
  | ok
  | notFound
  | qidNotFound
  | error
  | skipped
deriving DecidableEq, Repr

/-- The result dict of an enrichment call (`status` plus the optional keys
the embedded claims read).  `qid` is a `PyVal` because the event path
returns a list under that key. -/
structure EnrichRes where
  status : EnrichStatus
  resName : Option String
  qid : Option PyVal
  message : Option String
deriving DecidableEq, Repr

/-- The name-matching loop shared by the enrichment services: first record
whose (non-null) name field equals the query case-insensitively. -/
def findByFullName (persons : List NPerson) (nm : String) : Option NPerson :=
  persons.find? (fun p =>
    match p.fullName with
    | some fn => pyLower fn = pyLower nm
    | none => false)

/-- Embeds the attribute part of `PersonRepo.upsert_person_enrichment`
(person_repo.py lines 87-103): `MATCH (p:Person {article_id: $person_id})
SET p.wikidata_qid = $qid, p.description = ..., p.image_url = ...`.
Relationship merges write outside the embedded record. -/
def upsert_person_enrichment (store : List NPerson) (personId : Nat) (qid : String)
    (description image : Option String) : List NPerson :=
  store.map (fun p =>
    if p.articleId = some personId then
      { p with wikidataQid := some qid, description := description, imageUrl := image }
    else p)

/-- Embeds `enrich_person_by_name(name)`
(person_enrichment_service.py lines 76-140).  Steps: match by full name in
the first 10000 persons; validate `article_id`; resolve qids with
`find_qid_by_label(name, limit=5)` and take `qids[0]`; fetch all attribute
bundles (each may raise, and raises propagate — there is no try/except in
this function); persist via the upsert.  Returns the result dict and the
store after the write. -/
def enrich_person_by_name (env : HttpEnv) (store : List NPerson) (nm : String) :
    Except PyErr (EnrichRes × List NPerson) := do
  let persons := store.take 10000
  match findByFullName persons nm with
  | none => return (⟨EnrichStatus.notFound, some nm, none, none⟩, store)
  | some m =>
    match m.articleId with
    | none =>
      return (⟨EnrichStatus.error, some nm, none, some "article_id is None"⟩, store)
    | some personId => do
      let qids ← find_qid_by_label env nm 5
      match qids with
      | [] => return (⟨EnrichStatus.qidNotFound, some nm, none, none⟩, store)
      | qid :: _ => do
        let basic ← get_person_basic_by_qid env qid
        let _positions ← get_person_positions env qid
        let _dynasties ← get_person_dynasty env qid
        let _cod ← get_person_cause_and_killer env qid
        let _events ← get_person_events env qid
        let _death ← get_person_death_info env qid
        let _conflicts ← get_person_conflicts env qid
        let _awards ← get_person_awards env qid
        let _works ← get_person_notable_works env qid
        let _alliances ← get_person_alliances env qid
        let _ranks ← get_person_military_rank env qid
        let _orders ← get_person_religious_orders env qid
        let _crimes ← get_person_convicted_of env qid
        let store2 := upsert_person_enrichment store personId qid
          (basic.bind (fun b => b.description)) (basic.bind (fun b => b.image))
        return (⟨EnrichStatus.ok, some nm, some (PyVal.str qid), none⟩, store2)

/-- Embeds `preview_person_enrichment(name)`
(person_enrichment_service.py lines 12-74): same matching and resolution as
the write path (`find_qid_by_label` with `limit=1`, then `qids[0]`), same
attribute fetches, but the function contains no store write; the store is
returned unchanged.  The result carries `candidate['qid']` in the `qid`
field. -/
def preview_person_enrichment (env : HttpEnv) (store : List NPerson) (nm : String) :
    Except PyErr (EnrichRes × List NPerson) := do
  let persons := store.take 10000
  match findByFullName persons nm with
  | none => return (⟨EnrichStatus.notFound, some nm, none, none⟩, store)
  | some m =>
    match m.articleId with
    | none =>
      return (⟨EnrichStatus.error, some nm, none, some "article_id is None"⟩, store)
    | some _personId => do
      let qids ← find_qid_by_label env nm 1
      match qids with
      | [] => return (⟨EnrichStatus.qidNotFound, some nm, none, none⟩, store)
      | qid :: _ => do
        let _basic ← get_person_basic_by_qid env qid
        let _positions ← get_person_positions env qid
        let _dynasties ← get_person_dynasty env qid
        let _cod ← get_person_cause_and_killer env qid
        let _events ← get_person_events env qid
        let _death ← get_person_death_info env qid
        let _conflicts ← get_person_conflicts env qid
        let _awards ← get_person_awards env qid
        let _works ← get_person_notable_works env qid
        let _alliances ← get_person_alliances env qid
        let _ranks ← get_person_military_rank env qid
        let _orders ← get_person_religious_orders env qid
        let _crimes ← get_person_convicted_of env qid
        return (⟨EnrichStatus.ok, some nm, some (PyVal.str qid), none⟩, store)

/-- First event whose (non-null) name equals the query case-insensitively. -/
def findEventByName (events : List NEvent) (nm : String) : Option NEvent :=
  events.find? (fun e =>
    match e.name with
    | some n => pyLower n = pyLower nm
    | none => false)

/-- Embeds `EventRepo.upsert_event_enrichment` (event_repo.py):
`MATCH (e:Event {event_id: $event_id}) SET e.wikidata_qid = $qid, ...`.
The stored qid is whatever Python value the caller passed. -/
def upsert_event_enrichment (store : List NEvent) (eventId : Nat) (qid : PyVal)
    (description image : Option String) : List NEvent :=
  store.map (fun e =>
    if e.eventId = some eventId then
      { e with wikidataQid := some qid, description := description, imageUrl := image }
    else e)

/-- Embeds `enrich_event_by_name(name)` (services/enrichment/event_enrichment.py
lines 11-49).  NOTE, faithful to the source: line 34 is
`qid = get_event_qid_by_name(name)` — the whole returned *list* is bound to
`qid` (no `[0]` indexing, unlike `enrich_all_events` in the same file), and
that list is what reaches `get_event_basic_by_qid` and the upsert. -/
def enrich_event_by_name (env : HttpEnv) (store : List NEvent) (nm : String) :
    Except PyErr (EnrichRes × List NEvent) := do
  let events := store.take 10000
  match findEventByName events nm with
  | none => return (⟨EnrichStatus.notFound, some nm, none, none⟩, store)
  | some m =>
    match m.eventId with
    | none =>
      return (⟨EnrichStatus.error, some nm, none, some "event_id is None"⟩, store)
    | some eventId => do
      let qid ← get_event_qid_by_name env nm 1
      match qid with
      | [] => return (⟨EnrichStatus.qidNotFound, some nm, none, none⟩, store)
      | q0 :: qrest => do
        let qidList := q0 :: qrest
        let basic ← get_event_basic_by_qid env (PyVal.strList qidList)
        let store2 := upsert_event_enrichment store eventId (PyVal.strList qidList)
          (basic.bind (fun b => b.2.1)) (basic.bind (fun b => b.2.2))
        return (⟨EnrichStatus.ok, some nm, some (PyVal.strList qidList), none⟩, store2)

/-! ## Run controller: routers/enrichment/person_enrichment.py -/

/-- The `fail_reasons` sub-dict of `enrichment_progress`. -/
structure FailReasons where
  notFound : Nat
  qidNotFound : Nat
  error : Nat
  skipped : Nat
deriving DecidableEq, Repr

/-- One entry of `last_errors`. -/
structure ErrInfo where
  errName : Option String
  status : EnrichStatus
  message : Option String
deriving DecidableEq, Repr

/-- The global `enrichment_progress` dict (person_enrichment.py lines 18-34). -/
structure Progress where
  running : Bool
  total : Nat
  processed : Nat
  success : Nat
  failed : Nat
  currentBatch : Nat
  lastOffset : Nat
  failReasons : FailReasons
  lastErrors : List ErrInfo
deriving DecidableEq, Repr

/-- The initial value of `enrichment_progress` (also what `reset_progress`
restores). -/
def initialProgress : Progress :=
  ⟨false, 0, 0, 0, 0, 0, 0, ⟨0, 0, 0, 0⟩, []⟩

/-- The result dict built by `enrich_single_person` (lines 231-255). -/
structure TaskResult where
  resName : Option String
  articleId : Option Nat
  status : EnrichStatus
  qid : Option PyVal
  message : Option String
  errorMsg : Option String
deriving DecidableEq, Repr

/-- What `future.result(timeout=30)` yields for one submitted task: the
worker's result dict, or a raised exception / timeout. -/
inductive FutureOutcome
  | res (r : TaskResult)
  | exn (msg : String)
deriving DecidableEq, Repr

/-- Models `if status in enrichment_progress["fail_reasons"]: ... += 1 else
fail_reasons["error"] += 1` (lines 409-412); the dict's keys are not_found,
qid_not_found, error, skipped. -/
def bumpFailReason (f : FailReasons) : EnrichStatus → FailReasons
  | EnrichStatus.notFound => { f with notFound := f.notFound + 1 }
  | EnrichStatus.qidNotFound => { f with qidNotFound := f.qidNotFound + 1 }
  | EnrichStatus.error => { f with error := f.error + 1 }
  | EnrichStatus.skipped => { f with skipped := f.skipped + 1 }
  | EnrichStatus.ok => { f with error := f.error + 1 }

/-- Models `error_info = {..., "message": result.get("message") or
result.get("error")}`. -/
def errInfoOf (r : TaskResult) : ErrInfo :=
  ⟨r.resName, r.status,
    match r.message with
    | some msg => some msg
    | none => r.errorMsg⟩

/-- Folds one settled future into the progress counters, embedding the body
of the result-collection loop of `background_enrich_all` (lines 398-424):
a result increments `processed` and then `success` (status ok) or `failed`
plus a `fail_reasons` bucket and the bounded `last_errors` ring; a raised
exception / timeout increments `processed`, `failed` and
`fail_reasons["error"]`. -/
def foldFuture (p : Progress) (o : FutureOutcome) : Progress :=
  match o with
  | FutureOutcome.res r =>
    let p1 := { p with processed := p.processed + 1 }
    if r.status = EnrichStatus.ok then
      { p1 with success := p1.success + 1 }
    else
      let p2 := { p1 with failed := p1.failed + 1,
                          failReasons := bumpFailReason p1.failReasons r.status }
      let errs := p2.lastErrors ++ [errInfoOf r]
      { p2 with lastErrors := if 10 < errs.length then errs.drop 1 else errs }
  | FutureOutcome.exn _ =>
    { p with processed := p.processed + 1, failed := p.failed + 1,
             failReasons := { p.failReasons with error := p.failReasons.error + 1 } }

/-- The candidate filter of `fetch_persons_batch` and of the counting query
of `background_enrich_all`: `p.full_name IS NOT NULL AND p.wikidata_qid IS
NULL`. -/
def eligible (p : NPerson) : Bool :=
  p.fullName.isSome && p.wikidataQid.isNone

/-- Embeds `fetch_persons_batch(repo, offset, batch_size)` (lines 318-332):
the filtered candidate listing with `SKIP offset LIMIT batch_size`, or
`None` (not an empty list) when the store read raises. -/
def fetch_persons_batch (connOk : Bool) (store : List NPerson)
    (offset batchSize : Nat) : Option (List NPerson) :=
  if connOk then some (((store.filter eligible).drop offset).take batchSize)
  else none

/-- The store effect of one settled worker task, as seen by the controller:
when `enrich_single_person` reported status ok, the service has run
`upsert_person_enrichment`, whose attribute write sets
`p.wikidata_qid` on the matched person (person_repo.py line 89) — removing
it from the `eligible` filter.  All other statuses reach no upsert. -/
def applyOutcome (store : List NPerson) (per : NPerson) :
    FutureOutcome → List NPerson
  | FutureOutcome.res r =>
    match r.status, r.qid, per.articleId with
    | EnrichStatus.ok, some (PyVal.str q), some aid =>
      store.map (fun p =>
        if p.articleId = some aid then { p with wikidataQid := some q } else p)
    | _, _, _ => store
  | FutureOutcome.exn _ => store

/-- State carried across iterations of the `while` loop of
`background_enrich_all`, plus observation logs: `fetchLog` records the
offset of every `fetch_persons_batch` call, `submitted` accumulates every
candidate handed to the worker pool, `file` is the current content of
`enrichment_progress.json` (`save_progress` dumps the whole progress
dict). -/
structure LoopState where
  progress : Progress
  store : List NPerson
  offset : Nat
  retryCount : Nat
  fetchIdx : Nat
  fetchLog : List Nat
  submitted : List NPerson
  file : Option Progress
deriving DecidableEq, Repr

/-- Why the run loop ended (`fuelOut` is an artefact of the fuelled
embedding, never reached in the runs the theorems consider). -/
inductive ExitReason
  | finished
  | exhausted
  | maxRetries
  | stoppedFlag
  | fuelOut
  | countFailed
deriving DecidableEq, Repr

/-- Top-of-iteration bookkeeping (lines 372-374): set `current_batch` and
`last_offset` to the offset and `save_progress()`. -/
def saveTop (st : LoopState) : LoopState :=
  let p := { st.progress with currentBatch := st.offset, lastOffset := st.offset }
  { st with progress := p, file := some p }

/-- Processing of one successfully fetched, non-empty batch (lines 389-428):
reset the retry counter, fold every future's outcome into the progress,
apply the workers' store writes, advance the offset by the batch size, set
`last_offset` and `save_progress()`. -/
def processBatch (outcome : NPerson → FutureOutcome) (B : Nat)
    (ps : List NPerson) (st : LoopState) : LoopState :=
  let prog := ps.foldl (fun pr per => foldFuture pr (outcome per)) st.progress
  let store2 := ps.foldl (fun s per => applyOutcome s per (outcome per)) st.store
  let off2 := st.offset + B
  let prog2 := { prog with lastOffset := off2 }
  { st with progress := prog2, store := store2, offset := off2, retryCount := 0,
            submitted := st.submitted ++ ps, file := some prog2 }

/-- Bookkeeping of one `fetch_persons_batch` call: count it and log its
offset. -/
def noteFetch (st : LoopState) : LoopState :=
  { st with fetchIdx := st.fetchIdx + 1, fetchLog := st.fetchLog ++ [st.offset] }

/-- The `while offset < total and enrichment_progress["running"]` loop of
`background_enrich_all` (lines 371-432), structurally recursive on fuel.
`conn i` tells whether the i-th store read succeeds; `stopObs i` tells
whether, by the i-th evaluation of the loop condition, an operator's
`stop_enrichment` call has cleared the running flag.  Failed fetches
increment `retry_count` and retry the same offset, breaking at
`retry_count >= 3`; an empty batch breaks as exhausted. -/
def runLoop (total B : Nat) (conn : Nat → Bool) (stopObs : Nat → Bool)
    (outcome : NPerson → FutureOutcome) :
    Nat → Nat → LoopState → LoopState × ExitReason
  | 0, iter, st =>
    if st.offset < total ∧ stopObs iter = false then (st, ExitReason.fuelOut)
    else (st, if st.offset < total then ExitReason.stoppedFlag else ExitReason.finished)
  | fuel + 1, iter, st =>
    if st.offset < total ∧ stopObs iter = false then
      match fetch_persons_batch (conn st.fetchIdx) st.store st.offset B with
      | none =>
        if 3 ≤ st.retryCount + 1 then
          ({ noteFetch (saveTop st) with retryCount := st.retryCount + 1 },
            ExitReason.maxRetries)
        else runLoop total B conn stopObs outcome fuel (iter + 1)
          { noteFetch (saveTop st) with retryCount := st.retryCount + 1 }
      | some [] =>
        ({ noteFetch (saveTop st) with retryCount := 0 }, ExitReason.exhausted)
      | some (p :: ps) =>
        runLoop total B conn stopObs outcome fuel (iter + 1)
          (processBatch outcome B (p :: ps) (noteFetch (saveTop st)))
    else (st, if st.offset < total then ExitReason.stoppedFlag else ExitReason.finished)

/-- The unconditional tail of `background_enrich_all` (lines 434-435):
`enrichment_progress["running"] = False; save_progress()`. -/
def finishRun (st : LoopState) : LoopState :=
  let p := { st.progress with running := false }
  { st with progress := p, file := some p }

/-- Embeds `background_enrich_all(batch_size, workers, delay, start_offset)`
(lines 335-436).  `countOk` is whether the initial counting query succeeds
(on failure: clear running and return, no save).  Otherwise: `total` :=
count of eligible persons; mark running; zero the counters only when
`start_offset == 0` (resume keeps existing counts); run the batch loop;
finally clear running and save. -/
def background_enrich_all (countOk : Bool) (conn stopObs : Nat → Bool)
    (outcome : NPerson → FutureOutcome) (batchSize startOffset : Nat)
    (initProg : Progress) (store : List NPerson) (initFile : Option Progress)
    (fuel : Nat) : LoopState × ExitReason :=
  if countOk then
    let total := (store.filter eligible).length
    let p0 := { initProg with total := total, running := true }
    let p1 := if startOffset = 0 then
        { p0 with processed := 0, success := 0, failed := 0 } else p0
    let p2 := { p1 with lastOffset := startOffset }
    let st0 : LoopState :=
      { progress := p2, store := store, offset := startOffset, retryCount := 0,
        fetchIdx := 0, fetchLog := [], submitted := [], file := initFile }
    let res := runLoop total batchSize conn stopObs outcome fuel 0 st0
    (finishRun res.1, res.2)
  else
    ({ progress := { initProg with running := false }, store := store,
       offset := startOffset, retryCount := 0, fetchIdx := 0, fetchLog := [],
       submitted := [], file := initFile }, ExitReason.countFailed)

/-! ### Operator endpoints -/

/-- Arguments of a scheduled `background_tasks.add_task(background_enrich_all,
batch_size, workers, delay, start_offset)` call. -/
structure TaskSpec where
  batchSize : Nat
  startOffset : Nat
deriving DecidableEq, Repr

/-- Response of `start_fast_enrich_all`. -/
inductive StartResp
  | alreadyRunning (p : Progress)
  | started
deriving DecidableEq, Repr

/-- Embeds `start_fast_enrich_all` (lines 439-470): if `running`, return the
current progress and schedule nothing; else schedule a background run at
offset 0. -/
def start_fast_enrich_all (p : Progress) (tasks : List TaskSpec) (batchSize : Nat) :
    StartResp × Progress × List TaskSpec :=
  if p.running then (StartResp.alreadyRunning p, p, tasks)
  else (StartResp.started, p, tasks ++ [⟨batchSize, 0⟩])

/-- The checkpoint file as the code's `load_progress` can see it: missing,
parseable (with the parsed progress), or present but not parseable. -/
inductive FileState
  | absent
  | good (p : Progress)
  | corrupt
deriving DecidableEq, Repr

/-- Embeds `load_progress()` (lines 44-52): returns the parsed dict when the
file exists and parses; every failure path (missing file, raised parse
error — caught by the `except`) returns `None`. -/
def load_progress : FileState → Option Progress
  | FileState.absent => none
  | FileState.corrupt => none
  | FileState.good p => some p

/-- Response of `resume_enrichment`. -/
inductive ResumeResp
  | alreadyRunning (p : Progress)
  | resumed (startOffset : Nat)
deriving DecidableEq, Repr

/-- Embeds `resume_enrichment` (lines 473-515): if `running`, return the
current progress unchanged and schedule nothing.  Else load the saved
progress; when present, `enrichment_progress.update(saved)` (the saved dict
holds every key, so the update replaces the whole dict) and resume from
`saved.get("last_offset", 0)`; when absent, resume from 0. -/
def resume_enrichment (p : Progress) (tasks : List TaskSpec) (batchSize : Nat)
    (file : FileState) : ResumeResp × Progress × List TaskSpec :=
  if p.running then (ResumeResp.alreadyRunning p, p, tasks)
  else
    match load_progress file with
    | some saved =>
      (ResumeResp.resumed saved.lastOffset, saved, tasks ++ [⟨batchSize, saved.lastOffset⟩])
    | none => (ResumeResp.resumed 0, p, tasks ++ [⟨batchSize, 0⟩])

/-- Embeds `stop_enrichment` (lines 573-578): clear the running flag. -/
def stop_enrichment (p : Progress) : Progress :=
  { p with running := false }

/-! ### Byte-level model of the checkpoint write (`save_progress`)

`save_progress` (lines 36-42) runs `open(PROGRESS_FILE, 'w')` — which
truncates the file in place — and then `json.dump(enrichment_progress, f)`,
which writes the serialized dict incrementally.  The file states a crash can
expose are therefore the old content (crash before the open completes) and
every prefix of the new content (crash during/after truncation).  File
contents are byte (char) lists; `json.dump` output is a single JSON object:
a brace-balanced text that a reader can parse exactly when it is complete. -/

/-- All file contents observable if the process crashes at an arbitrary
point of `save_progress`: the previous content, or any prefix of the new
content (the empty prefix is the just-truncated file). -/
def saveWriteStates (old new : List Char) : List (List Char) :=
  old :: (List.range (new.length + 1)).map (fun k => new.take k)

/-- Brace matcher at depth ≥ 1: `closes cs d` holds when `cs` closes the
`d` currently-open braces exactly at its end (no early close, no trailing
bytes — `json.load` rejects both truncated objects and trailing data). -/
def closes : List Char → Nat → Bool
  | [], _ => false
  | c :: cs, d =>
    if c = '}' ∧ d = 1 then cs.isEmpty
    else closes cs (if c = '{' then d + 1 else if c = '}' then d - 1 else d)

/-- A byte sequence is a complete serialized checkpoint record iff it is a
single brace-balanced JSON object: an opening brace whose matching close is
the final byte. -/
def jsonBalanced : List Char → Bool
  | [] => false
  | c :: cs => c = '{' && closes cs 1

/-- Byte-level `load_progress`: parse the file, mapping any parse failure
(which the source catches) to `none`. -/
def loadCheckpointBytes (cs : List Char) : Option (List Char) :=
  if jsonBalanced cs then some cs else none

/-! ### Derived definitions and concrete fixtures -/

/-- Embeds `enrich_single_person(person)` (person_enrichment.py lines
231-255): skip missing/empty names, call `enrich_person_by_name`, and catch
any raised exception into an `error` result dict (leaving the store as the
service left it — every raise in the embedded service happens before its
store write).  The caught exception's `str(e)` is summarized as a fixed
message. -/
def enrich_single_person (env : HttpEnv) (store : List NPerson) (person : NPerson) :
    TaskResult × List NPerson :=
  match person.fullName with
  | none =>
    (⟨person.fullName, person.articleId, EnrichStatus.skipped, none, none, none⟩, store)
  | some nm =>
    if nm = "" then
      (⟨some nm, person.articleId, EnrichStatus.skipped, none, none, none⟩, store)
    else
      match enrich_person_by_name env store nm with
      | Except.ok (r, store2) =>
        (⟨some nm, person.articleId, r.status, r.qid, r.message, none⟩, store2)
      | Except.error _ =>
        (⟨some nm, person.articleId, EnrichStatus.error, none, none,
          some "exception"⟩, store)

/-- The counter invariant `processed = succeeded + failed`. -/
def pInv (p : Progress) : Prop := p.processed = p.success + p.failed

/-- Initial loop state built by `background_enrich_all` when
`start_offset == 0` (counters zeroed). -/
def freshState (initProg : Progress) (S : List NPerson) (initFile : Option Progress) :
    LoopState :=
  { progress :=
      { initProg with
        total := (S.filter eligible).length, running := true,
        processed := 0, success := 0, failed := 0, lastOffset := 0 },
    store := S, offset := 0, retryCount := 0, fetchIdx := 0, fetchLog := [],
    submitted := [], file := initFile }

/-- Initial loop state built by `background_enrich_all` when resuming
(`start_offset != 0`, counters kept). -/
def resumeState (so : Nat) (initProg : Progress) (S : List NPerson)
    (initFile : Option Progress) : LoopState :=
  { progress :=
      { initProg with
        total := (S.filter eligible).length, running := true,
        lastOffset := so },
    store := S, offset := so, retryCount := 0, fetchIdx := 0, fetchLog := [],
    submitted := [], file := initFile }

/-- Fixture: an eligible person record. -/
def personAda : NPerson :=
  { name := some "ada", articleId := some 1, fullName := some "Ada",
    wikidataQid := none, description := none, imageUrl := none }

/-- Fixture: a second eligible person record. -/
def personBob : NPerson :=
  { name := some "bob", articleId := some 2, fullName := some "Bob",
    wikidataQid := none, description := none, imageUrl := none }

/-- Fixture: worker outcome where every candidate enriches successfully
(status ok, qid written back). -/
def allOkOutcome : NPerson → FutureOutcome := fun per =>
  FutureOutcome.res
    { resName := per.fullName, articleId := per.articleId,
      status := EnrichStatus.ok, qid := some (PyVal.str "Q1"),
      message := none, errorMsg := none }

/-- Fixture: worker outcome where every candidate fails with qid_not_found
(no store write, candidate stays in the eligible filter). -/
def allQidNotFoundOutcome : NPerson → FutureOutcome := fun per =>
  FutureOutcome.res
    { resName := per.fullName, articleId := per.articleId,
      status := EnrichStatus.qidNotFound, qid := none,
      message := none, errorMsg := none }

/-- Fixture: the external service answers HTTP 429 to every request. -/
def env429 : HttpEnv := fun _ _ => HttpResp.httpStatus 429

/-- Fixture: identity resolution succeeds (a single match Q42), every later
attribute query is rate-limited on all attempts. -/
def envOutageAfterResolve : HttpEnv := fun q _ =>
  match q with
  | SparqlQuery.findQid _ _ =>
    HttpResp.ok ⟨[[("person", "http://www.wikidata.org/entity/Q42")]]⟩
  | _ => HttpResp.httpStatus 429

/-- Fixture: event identity resolution returns exactly Q123; every other
query succeeds with no bindings. -/
def envEventQ123 : HttpEnv := fun q _ =>
  match q with
  | SparqlQuery.eventQid _ _ =>
    HttpResp.ok ⟨[[("event", "http://www.wikidata.org/entity/Q123")]]⟩
  | _ => HttpResp.ok ⟨[]⟩

/-- Fixture: an event record with a name and id. -/
def eventBattle : NEvent :=
  { name := some "Battle", eventId := some 7, wikidataQid := none,
    description := none, imageUrl := none }

/-- Fixture bytes: a serialized previous checkpoint. -/
def ckOldBytes : List Char := ['{', 'o', '}']

/-- Fixture bytes: a serialized new checkpoint. -/
def ckNewBytes : List Char := ['{', 'n', '}']

/-- Fixture: the stop schedule where the operator stop is first observed at
loop-condition check 1 (i.e. the stop endpoint was hit while batch 0 was in
flight). -/
def stopAtOne : Nat → Bool := fun i => decide (1 ≤ i)

/-- Fixture for the resume scenario: first run over two fully-succeeding
candidates with batch size 1, stopped after batch 0 completes. -/
def c3run1 : LoopState × ExitReason :=
  background_enrich_all true (fun _ => true) stopAtOne allOkOutcome 1 0
    initialProgress [personAda, personBob] none 10

/-- Fixture: the checkpoint file the first run left behind. -/
def c3file : FileState :=
  match c3run1.1.file with
  | some p => FileState.good p
  | none => FileState.absent

/-- Fixture: the resume endpoint call after the first run. -/
def c3resume : ResumeResp × Progress × List TaskSpec :=
  resume_enrichment c3run1.1.progress [] 1 c3file

/-- Fixture: the task the resume endpoint scheduled. -/
def c3task : TaskSpec := c3resume.2.2.getLastD ⟨0, 0⟩

/-- Fixture: the resumed background run, executing the scheduled task over
the store the first run left behind. -/
def c3run2 : LoopState × ExitReason :=
  background_enrich_all true (fun _ => true) (fun _ => false) allOkOutcome
    c3task.batchSize c3task.startOffset c3resume.2.1 c3run1.1.store c3run1.1.file 10

/-! ## General lemmas about the embedded controller -/

/-- Folding one settled future increments `processed` by exactly one. -/
theorem foldFuture_processed (p : Progress) (o : FutureOutcome) :
    (foldFuture p o).processed = p.processed + 1 := by
  cases o with
  | res r =>
    simp only [foldFuture]
    split
    · rfl
    · split <;> rfl
  | exn m => rfl

/-- Folding one settled future increments `success + failed` by exactly one. -/
theorem foldFuture_sum (p : Progress) (o : FutureOutcome) :
    (foldFuture p o).success + (foldFuture p o).failed = p.success + p.failed + 1 := by
  cases o with
  | res r =>
    simp only [foldFuture]
    split
    · simp only []
      omega
    · split <;> (simp only []; omega)
  | exn m =>
    simp only [foldFuture]
    omega

/-- Folding one settled future increments exactly one of `success`, `failed`. -/
theorem foldFuture_exactlyOne (p : Progress) (o : FutureOutcome) :
    ((foldFuture p o).success = p.success + 1 ∧ (foldFuture p o).failed = p.failed) ∨
    ((foldFuture p o).success = p.success ∧ (foldFuture p o).failed = p.failed + 1) := by
  cases o with
  | res r =>
    simp only [foldFuture]
    split
    · exact Or.inl ⟨rfl, rfl⟩
    · split <;> exact Or.inr ⟨rfl, rfl⟩
  | exn m => exact Or.inr ⟨rfl, rfl⟩

/-- Folding a whole batch adds the batch length to `processed`. -/
theorem foldBatch_processed (outcome : NPerson → FutureOutcome) :
    ∀ (ps : List NPerson) (p : Progress),
      (ps.foldl (fun pr per => foldFuture pr (outcome per)) p).processed =
        p.processed + ps.length := by
  intro ps
  induction ps with
  | nil => intro p; simp
  | cons a l ih =>
    intro p
    simp only [List.foldl_cons, List.length_cons]
    rw [ih, foldFuture_processed]
    omega

/-- Folding a whole batch adds the batch length to `success + failed`. -/
theorem foldBatch_sum (outcome : NPerson → FutureOutcome) :
    ∀ (ps : List NPerson) (p : Progress),
      (ps.foldl (fun pr per => foldFuture pr (outcome per)) p).success +
        (ps.foldl (fun pr per => foldFuture pr (outcome per)) p).failed =
        p.success + p.failed + ps.length := by
  intro ps
  induction ps with
  | nil => intro p; simp
  | cons a l ih =>
    intro p
    simp only [List.foldl_cons, List.length_cons]
    rw [ih]
    have := foldFuture_sum p (outcome a)
    omega

/-- Batch folding preserves the counter invariant. -/
theorem foldBatch_pInv (outcome : NPerson → FutureOutcome) (ps : List NPerson)
    (p : Progress) (h : pInv p) :
    pInv (ps.foldl (fun pr per => foldFuture pr (outcome per)) p) := by
  unfold pInv at h ⊢
  rw [foldBatch_processed, foldBatch_sum, h]

/-! ### Projection lemmas for the loop's state transformers -/

@[simp] theorem saveTop_store (st : LoopState) : (saveTop st).store = st.store := rfl

@[simp] theorem saveTop_offset (st : LoopState) : (saveTop st).offset = st.offset := rfl

@[simp] theorem saveTop_retryCount (st : LoopState) :
    (saveTop st).retryCount = st.retryCount := rfl

@[simp] theorem saveTop_fetchIdx (st : LoopState) :
    (saveTop st).fetchIdx = st.fetchIdx := rfl

@[simp] theorem saveTop_fetchLog (st : LoopState) :
    (saveTop st).fetchLog = st.fetchLog := rfl

@[simp] theorem saveTop_submitted (st : LoopState) :
    (saveTop st).submitted = st.submitted := rfl

@[simp] theorem saveTop_processed (st : LoopState) :
    (saveTop st).progress.processed = st.progress.processed := rfl

@[simp] theorem saveTop_success (st : LoopState) :
    (saveTop st).progress.success = st.progress.success := rfl

@[simp] theorem saveTop_failed (st : LoopState) :
    (saveTop st).progress.failed = st.progress.failed := rfl

@[simp] theorem saveTop_lastOffset (st : LoopState) :
    (saveTop st).progress.lastOffset = st.offset := rfl

@[simp] theorem saveTop_currentBatch (st : LoopState) :
    (saveTop st).progress.currentBatch = st.offset := rfl

@[simp] theorem saveTop_running (st : LoopState) :
    (saveTop st).progress.running = st.progress.running := rfl

@[simp] theorem saveTop_file (st : LoopState) :
    (saveTop st).file = some (saveTop st).progress := rfl

@[simp] theorem noteFetch_store (st : LoopState) : (noteFetch st).store = st.store := rfl

@[simp] theorem noteFetch_offset (st : LoopState) :
    (noteFetch st).offset = st.offset := rfl

@[simp] theorem noteFetch_retryCount (st : LoopState) :
    (noteFetch st).retryCount = st.retryCount := rfl

@[simp] theorem noteFetch_fetchIdx (st : LoopState) :
    (noteFetch st).fetchIdx = st.fetchIdx + 1 := rfl

@[simp] theorem noteFetch_fetchLog (st : LoopState) :
    (noteFetch st).fetchLog = st.fetchLog ++ [st.offset] := rfl

@[simp] theorem noteFetch_submitted (st : LoopState) :
    (noteFetch st).submitted = st.submitted := rfl

@[simp] theorem noteFetch_progress (st : LoopState) :
    (noteFetch st).progress = st.progress := rfl

@[simp] theorem noteFetch_file (st : LoopState) : (noteFetch st).file = st.file := rfl

@[simp] theorem processBatch_offset (outcome : NPerson → FutureOutcome) (B : Nat)
    (ps : List NPerson) (st : LoopState) :
    (processBatch outcome B ps st).offset = st.offset + B := rfl

@[simp] theorem processBatch_store (outcome : NPerson → FutureOutcome) (B : Nat)
    (ps : List NPerson) (st : LoopState) :
    (processBatch outcome B ps st).store =
      ps.foldl (fun s per => applyOutcome s per (outcome per)) st.store := rfl

@[simp] theorem processBatch_submitted (outcome : NPerson → FutureOutcome) (B : Nat)
    (ps : List NPerson) (st : LoopState) :
    (processBatch outcome B ps st).submitted = st.submitted ++ ps := rfl

@[simp] theorem processBatch_fetchLog (outcome : NPerson → FutureOutcome) (B : Nat)
    (ps : List NPerson) (st : LoopState) :
    (processBatch outcome B ps st).fetchLog = st.fetchLog := rfl

@[simp] theorem processBatch_fetchIdx (outcome : NPerson → FutureOutcome) (B : Nat)
    (ps : List NPerson) (st : LoopState) :
    (processBatch outcome B ps st).fetchIdx = st.fetchIdx := rfl

@[simp] theorem processBatch_retryCount (outcome : NPerson → FutureOutcome) (B : Nat)
    (ps : List NPerson) (st : LoopState) :
    (processBatch outcome B ps st).retryCount = 0 := rfl

@[simp] theorem processBatch_lastOffset (outcome : NPerson → FutureOutcome) (B : Nat)
    (ps : List NPerson) (st : LoopState) :
    (processBatch outcome B ps st).progress.lastOffset = st.offset + B := rfl

@[simp] theorem processBatch_file (outcome : NPerson → FutureOutcome) (B : Nat)
    (ps : List NPerson) (st : LoopState) :
    (processBatch outcome B ps st).file =
      some (processBatch outcome B ps st).progress := rfl

@[simp] theorem processBatch_processed (outcome : NPerson → FutureOutcome) (B : Nat)
    (ps : List NPerson) (st : LoopState) :
    (processBatch outcome B ps st).progress.processed =
      st.progress.processed + ps.length := by
  have h : (processBatch outcome B ps st).progress.processed =
      (ps.foldl (fun pr per => foldFuture pr (outcome per)) st.progress).processed := rfl
  rw [h, foldBatch_processed]

theorem processBatch_sum (outcome : NPerson → FutureOutcome) (B : Nat)
    (ps : List NPerson) (st : LoopState) :
    (processBatch outcome B ps st).progress.success +
      (processBatch outcome B ps st).progress.failed =
      st.progress.success + st.progress.failed + ps.length := by
  have h1 : (processBatch outcome B ps st).progress.success =
      (ps.foldl (fun pr per => foldFuture pr (outcome per)) st.progress).success := rfl
  have h2 : (processBatch outcome B ps st).progress.failed =
      (ps.foldl (fun pr per => foldFuture pr (outcome per)) st.progress).failed := rfl
  rw [h1, h2, foldBatch_sum]

@[simp] theorem finishRun_running (st : LoopState) :
    (finishRun st).progress.running = false := rfl

@[simp] theorem finishRun_file (st : LoopState) :
    (finishRun st).file = some (finishRun st).progress := rfl

@[simp] theorem finishRun_processed (st : LoopState) :
    (finishRun st).progress.processed = st.progress.processed := rfl

@[simp] theorem finishRun_success (st : LoopState) :
    (finishRun st).progress.success = st.progress.success := rfl

@[simp] theorem finishRun_failed (st : LoopState) :
    (finishRun st).progress.failed = st.progress.failed := rfl

@[simp] theorem finishRun_lastOffset (st : LoopState) :
    (finishRun st).progress.lastOffset = st.progress.lastOffset := rfl

@[simp] theorem finishRun_total (st : LoopState) :
    (finishRun st).progress.total = st.progress.total := rfl

@[simp] theorem finishRun_store (st : LoopState) : (finishRun st).store = st.store := rfl

@[simp] theorem finishRun_submitted (st : LoopState) :
    (finishRun st).submitted = st.submitted := rfl

@[simp] theorem finishRun_fetchLog (st : LoopState) :
    (finishRun st).fetchLog = st.fetchLog := rfl

@[simp] theorem finishRun_offset (st : LoopState) :
    (finishRun st).offset = st.offset := rfl

/-! ### One-step unfolding equations for the batch loop -/

/-- Loop exit: the condition fails (offset exhausted or stop flag seen). -/
theorem runLoop_exit (total B : Nat) (conn stopObs : Nat → Bool)
    (outcome : NPerson → FutureOutcome) (fuel iter : Nat) (st : LoopState)
    (h : ¬ (st.offset < total ∧ stopObs iter = false)) :
    runLoop total B conn stopObs outcome fuel iter st =
      (st, if st.offset < total then ExitReason.stoppedFlag else ExitReason.finished) := by
  cases fuel <;> simp only [runLoop, if_neg h]

/-- Loop step on a successfully fetched non-empty batch. -/
theorem runLoop_step_batch (total B : Nat) (conn stopObs : Nat → Bool)
    (outcome : NPerson → FutureOutcome) (fuel iter : Nat) (st : LoopState)
    (p : NPerson) (ps : List NPerson)
    (hcond : st.offset < total ∧ stopObs iter = false)
    (hfetch : fetch_persons_batch (conn st.fetchIdx) st.store st.offset B =
      some (p :: ps)) :
    runLoop total B conn stopObs outcome (fuel + 1) iter st =
      runLoop total B conn stopObs outcome fuel (iter + 1)
        (processBatch outcome B (p :: ps) (noteFetch (saveTop st))) := by
  simp only [runLoop, if_pos hcond, hfetch]

/-- Loop step on a failed fetch that has not yet exhausted the retries. -/
theorem runLoop_step_failRetry (total B : Nat) (conn stopObs : Nat → Bool)
    (outcome : NPerson → FutureOutcome) (fuel iter : Nat) (st : LoopState)
    (hcond : st.offset < total ∧ stopObs iter = false)
    (hfetch : fetch_persons_batch (conn st.fetchIdx) st.store st.offset B = none)
    (hrc : ¬ 3 ≤ st.retryCount + 1) :
    runLoop total B conn stopObs outcome (fuel + 1) iter st =
      runLoop total B conn stopObs outcome fuel (iter + 1)
        { noteFetch (saveTop st) with retryCount := st.retryCount + 1 } := by
  simp only [runLoop, if_pos hcond, hfetch, if_neg hrc]

/-- Loop break when a failed fetch reaches `retry_count >= 3`. -/
theorem runLoop_step_failBreak (total B : Nat) (conn stopObs : Nat → Bool)
    (outcome : NPerson → FutureOutcome) (fuel iter : Nat) (st : LoopState)
    (hcond : st.offset < total ∧ stopObs iter = false)
    (hfetch : fetch_persons_batch (conn st.fetchIdx) st.store st.offset B = none)
    (hrc : 3 ≤ st.retryCount + 1) :
    runLoop total B conn stopObs outcome (fuel + 1) iter st =
      ({ noteFetch (saveTop st) with retryCount := st.retryCount + 1 },
        ExitReason.maxRetries) := by
  simp only [runLoop, if_pos hcond, hfetch, if_pos hrc]

/-- Loop break on an empty batch (candidate set exhausted). -/
theorem runLoop_step_empty (total B : Nat) (conn stopObs : Nat → Bool)
    (outcome : NPerson → FutureOutcome) (fuel iter : Nat) (st : LoopState)
    (hcond : st.offset < total ∧ stopObs iter = false)
    (hfetch : fetch_persons_batch (conn st.fetchIdx) st.store st.offset B = some []) :
    runLoop total B conn stopObs outcome (fuel + 1) iter st =
      ({ noteFetch (saveTop st) with retryCount := 0 }, ExitReason.exhausted) := by
  simp only [runLoop, if_pos hcond, hfetch]

/-- The batch loop preserves the counter invariant. -/
theorem runLoop_pInv (total B : Nat) (conn stopObs : Nat → Bool)
    (outcome : NPerson → FutureOutcome) :
    ∀ (fuel iter : Nat) (st : LoopState), pInv st.progress →
      pInv (runLoop total B conn stopObs outcome fuel iter st).1.progress := by
  intro fuel
  induction fuel with
  | zero =>
    intro iter st h
    by_cases hc : st.offset < total ∧ stopObs iter = false
    · simp only [runLoop, if_pos hc]
      exact h
    · rw [runLoop_exit _ _ _ _ _ _ _ _ hc]
      exact h
  | succ n ih =>
    intro iter st h
    by_cases hc : st.offset < total ∧ stopObs iter = false
    · cases hfetch : fetch_persons_batch (conn st.fetchIdx) st.store st.offset B with
      | none =>
        by_cases hrc : 3 ≤ st.retryCount + 1
        · rw [runLoop_step_failBreak _ _ _ _ _ _ _ _ hc hfetch hrc]
          exact h
        · rw [runLoop_step_failRetry _ _ _ _ _ _ _ _ hc hfetch hrc]
          exact ih _ _ h
      | some ps =>
        cases ps with
        | nil =>
          rw [runLoop_step_empty _ _ _ _ _ _ _ _ hc hfetch]
          exact h
        | cons p ps2 =>
          rw [runLoop_step_batch _ _ _ _ _ _ _ _ _ _ hc hfetch]
          refine ih _ _ ?_
          unfold pInv at h ⊢
          rw [processBatch_processed, processBatch_sum]
          simp only [noteFetch_progress, saveTop_processed, saveTop_success,
            saveTop_failed]
          omega
    · rw [runLoop_exit _ _ _ _ _ _ _ _ hc]
      exact h

/-- Finalisation (`running = False; save_progress()`) preserves the counter
invariant. -/
theorem finishRun_pInv (st : LoopState) (h : pInv st.progress) :
    pInv (finishRun st).progress := h

/-- The loop only ever appends to the fetch log. -/
theorem runLoop_fetchLog_mono (total B : Nat) (conn stopObs : Nat → Bool)
    (outcome : NPerson → FutureOutcome) :
    ∀ (fuel iter : Nat) (st : LoopState), ∃ tail,
      (runLoop total B conn stopObs outcome fuel iter st).1.fetchLog =
        st.fetchLog ++ tail := by
  intro fuel
  induction fuel with
  | zero =>
    intro iter st
    by_cases hc : st.offset < total ∧ stopObs iter = false
    · simp only [runLoop, if_pos hc]
      exact ⟨[], by simp⟩
    · rw [runLoop_exit _ _ _ _ _ _ _ _ hc]
      exact ⟨[], by simp⟩
  | succ n ih =>
    intro iter st
    by_cases hc : st.offset < total ∧ stopObs iter = false
    · cases hfetch : fetch_persons_batch (conn st.fetchIdx) st.store st.offset B with
      | none =>
        by_cases hrc : 3 ≤ st.retryCount + 1
        · rw [runLoop_step_failBreak _ _ _ _ _ _ _ _ hc hfetch hrc]
          exact ⟨[st.offset], by simp⟩
        · rw [runLoop_step_failRetry _ _ _ _ _ _ _ _ hc hfetch hrc]
          obtain ⟨tail, htail⟩ := ih (iter + 1)
            { noteFetch (saveTop st) with retryCount := st.retryCount + 1 }
          refine ⟨st.offset :: tail, ?_⟩
          rw [htail]
          simp
      | some ps =>
        cases ps with
        | nil =>
          rw [runLoop_step_empty _ _ _ _ _ _ _ _ hc hfetch]
          exact ⟨[st.offset], by simp⟩
        | cons p ps2 =>
          rw [runLoop_step_batch _ _ _ _ _ _ _ _ _ _ hc hfetch]
          obtain ⟨tail, htail⟩ := ih (iter + 1)
            (processBatch outcome B (p :: ps2) (noteFetch (saveTop st)))
          refine ⟨st.offset :: tail, ?_⟩
          rw [htail]
          simp
    · rw [runLoop_exit _ _ _ _ _ _ _ _ hc]
      exact ⟨[], by simp⟩

/-- When no outcome changes the store, batch application leaves it as is. -/
theorem foldl_applyOutcome_static (outcome : NPerson → FutureOutcome)
    (h : ∀ s per, applyOutcome s per (outcome per) = s) :
    ∀ (ps : List NPerson) (s : List NPerson),
      ps.foldl (fun s2 per => applyOutcome s2 per (outcome per)) s = s := by
  intro ps
  induction ps with
  | nil => intro s; rfl
  | cons a l ih =>
    intro s
    simp only [List.foldl_cons]
    rw [h]
    exact ih s

/-- A positive take of a non-empty list is non-empty. -/
theorem take_ne_nil_of_pos {α : Type} {l : List α} {B : Nat}
    (hl : l ≠ []) (hB : 0 < B) : l.take B ≠ [] := by
  cases l with
  | nil => exact absurd rfl hl
  | cons a t =>
    cases B with
    | zero => omega
    | succ m => simp

/-- Closed form of the batch loop over a static candidate set with the stop
flag never raised: the run drains every remaining candidate of the filtered
listing, exactly once each, and exits normally. -/
theorem runLoop_static_noStop (B total : Nat) (conn stopObs : Nat → Bool)
    (outcome : NPerson → FutureOutcome) (S : List NPerson)
    (hstatic : ∀ s per, applyOutcome s per (outcome per) = s)
    (hconn : ∀ i, conn i = true) (hstop : ∀ i, stopObs i = false)
    (htot : total = (S.filter eligible).length) (hB : 0 < B) :
    ∀ (fuel iter : Nat) (st : LoopState), st.store = S →
      total ≤ st.offset + fuel * B →
      (runLoop total B conn stopObs outcome fuel iter st).1.store = S ∧
      (runLoop total B conn stopObs outcome fuel iter st).1.submitted =
        st.submitted ++ (S.filter eligible).drop st.offset ∧
      (runLoop total B conn stopObs outcome fuel iter st).1.progress.processed =
        st.progress.processed + ((S.filter eligible).drop st.offset).length ∧
      (runLoop total B conn stopObs outcome fuel iter st).2 = ExitReason.finished ∧
      (st.offset < total → ∃ rest,
        (runLoop total B conn stopObs outcome fuel iter st).1.fetchLog =
          st.fetchLog ++ st.offset :: rest) := by
  intro fuel
  induction fuel with
  | zero =>
    intro iter st hstore hfuel
    have hoff : ¬ st.offset < total := by omega
    have hdrop : (S.filter eligible).drop st.offset = [] :=
      List.drop_eq_nil_of_le (by omega)
    rw [runLoop_exit _ _ _ _ _ _ _ _ (by simp [hoff])]
    exact ⟨hstore, by simp [hdrop], by simp [hdrop], by simp [hoff],
      fun h => absurd h hoff⟩
  | succ n ih =>
    intro iter st hstore hfuel
    by_cases hoff : st.offset < total
    · have hcond : st.offset < total ∧ stopObs iter = false := ⟨hoff, hstop iter⟩
      have hdropne : (S.filter eligible).drop st.offset ≠ [] := by
        rw [← List.length_pos, List.length_drop]
        omega
      obtain ⟨p, ps, hpps⟩ :=
        List.exists_cons_of_ne_nil (take_ne_nil_of_pos hdropne hB)
      have hfetch : fetch_persons_batch (conn st.fetchIdx) st.store st.offset B =
          some (p :: ps) := by
        rw [hconn st.fetchIdx, hstore]
        simp [fetch_persons_batch, hpps]
      rw [runLoop_step_batch _ _ _ _ _ _ _ _ _ _ hcond hfetch]
      have hmul : (n + 1) * B = n * B + B := by ring
      have hstore2 : (processBatch outcome B (p :: ps) (noteFetch (saveTop st))).store
          = S := by
        rw [processBatch_store]
        simp only [noteFetch_store, saveTop_store]
        rw [foldl_applyOutcome_static outcome hstatic, hstore]
      obtain ⟨ih1, ih2, ih3, ih4, ih5⟩ := ih (iter + 1)
        (processBatch outcome B (p :: ps) (noteFetch (saveTop st))) hstore2
        (by simp only [processBatch_offset, noteFetch_offset, saveTop_offset]; omega)
      have hdd : ((S.filter eligible).drop st.offset).drop B =
          (S.filter eligible).drop (st.offset + B) := by
        rw [List.drop_drop, Nat.add_comm]
      have hcover : (p :: ps) ++ (S.filter eligible).drop (st.offset + B) =
          (S.filter eligible).drop st.offset := by
        rw [← hpps, ← hdd]
        exact List.take_append_drop B _
      have hlenc : (p :: ps).length +
          ((S.filter eligible).drop (st.offset + B)).length =
          ((S.filter eligible).drop st.offset).length := by
        rw [← hcover, List.length_append]
      refine ⟨ih1, ?_, ?_, ih4, ?_⟩
      · rw [ih2]
        simp only [processBatch_submitted, noteFetch_submitted, saveTop_submitted,
          processBatch_offset, noteFetch_offset, saveTop_offset]
        rw [List.append_assoc, hcover]
      · rw [ih3]
        simp only [processBatch_processed, noteFetch_progress, saveTop_processed,
          processBatch_offset, noteFetch_offset, saveTop_offset]
        omega
      · intro _
        obtain ⟨tail, htail⟩ := runLoop_fetchLog_mono total B conn stopObs outcome n
          (iter + 1) (processBatch outcome B (p :: ps) (noteFetch (saveTop st)))
        refine ⟨tail, ?_⟩
        rw [htail]
        simp
    · have hdrop : (S.filter eligible).drop st.offset = [] :=
        List.drop_eq_nil_of_le (by omega)
      rw [runLoop_exit _ _ _ _ _ _ _ _ (by simp [hoff])]
      exact ⟨hstore, by simp [hdrop], by simp [hdrop], by simp [hoff],
        fun h => absurd h hoff⟩

/-- Closed form of the batch loop over a static candidate set when an
operator stop is first observed at loop-condition check `k` (the flag is
still up for every earlier check): the loop runs exactly the remaining
`k - iter` full batches, folds each one completely, saves after each, and
exits with the stop reason, leaving the offset and checkpointed
`last_offset` at the batch boundary where the stop was observed. -/
theorem runLoop_static_stop (B total : Nat) (conn stopObs : Nat → Bool)
    (outcome : NPerson → FutureOutcome) (S : List NPerson) (k : Nat)
    (hstatic : ∀ s per, applyOutcome s per (outcome per) = s)
    (hconn : ∀ i, conn i = true)
    (hstopF : ∀ i, i < k → stopObs i = false) (hstopT : stopObs k = true)
    (htot : total = (S.filter eligible).length) (hB : 0 < B) :
    ∀ (d fuel iter : Nat) (st : LoopState),
      iter + d = k → st.store = S → d ≤ fuel →
      st.offset + d * B < total →
      st.progress.lastOffset = st.offset →
      (runLoop total B conn stopObs outcome fuel iter st).1.store = S ∧
      (runLoop total B conn stopObs outcome fuel iter st).1.offset =
        st.offset + d * B ∧
      (runLoop total B conn stopObs outcome fuel iter st).1.submitted =
        st.submitted ++ ((S.filter eligible).drop st.offset).take (d * B) ∧
      (runLoop total B conn stopObs outcome fuel iter st).1.progress.processed =
        st.progress.processed + d * B ∧
      (runLoop total B conn stopObs outcome fuel iter st).1.progress.lastOffset =
        st.offset + d * B ∧
      (runLoop total B conn stopObs outcome fuel iter st).2 =
        ExitReason.stoppedFlag := by
  intro d
  induction d with
  | zero =>
    intro fuel iter st hk hstore hfuel hoff hlast
    have hiter : iter = k := by omega
    have hofflt : st.offset < total := by
      have hz : 0 * B = 0 := by ring
      omega
    have hcond : ¬ (st.offset < total ∧ stopObs iter = false) := by
      rw [hiter, hstopT]
      simp
    rw [runLoop_exit _ _ _ _ _ _ _ _ hcond]
    refine ⟨hstore, by simp, by simp, by simp, by simp [hlast], by simp [hofflt]⟩
  | succ d ihd =>
    intro fuel iter st hk hstore hfuel hoff hlast
    have hmul : (d + 1) * B = d * B + B := by ring
    have hiterk : iter < k := by omega
    have hofflt : st.offset < total := by omega
    have hcond : st.offset < total ∧ stopObs iter = false :=
      ⟨hofflt, hstopF iter hiterk⟩
    have hdropne : (S.filter eligible).drop st.offset ≠ [] := by
      rw [← List.length_pos, List.length_drop]
      omega
    obtain ⟨p, ps, hpps⟩ :=
      List.exists_cons_of_ne_nil (take_ne_nil_of_pos hdropne hB)
    have hfetch : fetch_persons_batch (conn st.fetchIdx) st.store st.offset B =
        some (p :: ps) := by
      rw [hconn st.fetchIdx, hstore]
      simp [fetch_persons_batch, hpps]
    have hlen : (p :: ps).length = B := by
      rw [← hpps, List.length_take, List.length_drop]
      omega
    cases fuel with
    | zero => omega
    | succ f =>
      rw [runLoop_step_batch _ _ _ _ _ _ _ _ _ _ hcond hfetch]
      have hstore2 : (processBatch outcome B (p :: ps) (noteFetch (saveTop st))).store
          = S := by
        rw [processBatch_store]
        simp only [noteFetch_store, saveTop_store]
        rw [foldl_applyOutcome_static outcome hstatic, hstore]
      obtain ⟨ih1, ih2, ih3, ih4, ih5, ih6⟩ := ihd f (iter + 1)
        (processBatch outcome B (p :: ps) (noteFetch (saveTop st)))
        (by omega) hstore2 (by omega)
        (by simp only [processBatch_offset, noteFetch_offset, saveTop_offset]; omega)
        (by simp)
      have hdd : ((S.filter eligible).drop st.offset).drop B =
          (S.filter eligible).drop (st.offset + B) := by
        rw [List.drop_drop, Nat.add_comm]
      have hsplit : ((S.filter eligible).drop st.offset).take ((d + 1) * B) =
          (p :: ps) ++ ((S.filter eligible).drop (st.offset + B)).take (d * B) := by
        rw [hmul, Nat.add_comm (d * B) B, List.take_add, hpps, hdd]
      refine ⟨ih1, ?_, ?_, ?_, ?_, ih6⟩
      · rw [ih2]
        simp only [processBatch_offset, noteFetch_offset, saveTop_offset]
        omega
      · rw [ih3]
        simp only [processBatch_submitted, noteFetch_submitted, saveTop_submitted,
          processBatch_offset, noteFetch_offset, saveTop_offset]
        rw [hsplit, List.append_assoc]
      · rw [ih4]
        simp only [processBatch_processed, noteFetch_progress, saveTop_processed]
        omega
      · rw [ih5]
        simp only [processBatch_offset, noteFetch_offset, saveTop_offset]
        omega

/-- Unfolding of `background_enrich_all` for a fresh start
(`start_offset == 0`, counting succeeds). -/
theorem background_enrich_all_fresh (conn stopObs : Nat → Bool)
    (outcome : NPerson → FutureOutcome) (B : Nat) (initProg : Progress)
    (S : List NPerson) (initFile : Option Progress) (fuel : Nat) :
    background_enrich_all true conn stopObs outcome B 0 initProg S initFile fuel =
      (finishRun (runLoop (S.filter eligible).length B conn stopObs outcome fuel 0
          (freshState initProg S initFile)).1,
        (runLoop (S.filter eligible).length B conn stopObs outcome fuel 0
          (freshState initProg S initFile)).2) := rfl

/-- Unfolding of `background_enrich_all` for a resume
(`start_offset != 0`, counters kept, counting succeeds). -/
theorem background_enrich_all_resume (conn stopObs : Nat → Bool)
    (outcome : NPerson → FutureOutcome) (B so : Nat) (initProg : Progress)
    (S : List NPerson) (initFile : Option Progress) (fuel : Nat) (hso : so ≠ 0) :
    background_enrich_all true conn stopObs outcome B so initProg S initFile fuel =
      (finishRun (runLoop (S.filter eligible).length B conn stopObs outcome fuel 0
          (resumeState so initProg S initFile)).1,
        (runLoop (S.filter eligible).length B conn stopObs outcome fuel 0
          (resumeState so initProg S initFile)).2) := by
  simp only [background_enrich_all, if_neg hso, resumeState]
  rw [if_pos trivial]

/-- The retry loop under permanently transient responses: every remaining
attempt issues one request and the loop falls through to the sentinel. -/
theorem runSparqlAux_allTransient (resp : Nat → HttpResp)
    (h : ∀ i, resp i = HttpResp.httpStatus 429) :
    ∀ (left attempt reqs : Nat),
      runSparqlAux resp left attempt reqs = (Except.ok none, reqs + left) := by
  intro left
  induction left with
  | zero => intro attempt reqs; simp [runSparqlAux]
  | succ n ih =>
    intro attempt reqs
    rw [runSparqlAux, h attempt]
    simp only []
    rw [if_pos (Or.inl trivial)]
    rw [ih (attempt + 1) (reqs + 1)]
    have : reqs + 1 + n = reqs + (n + 1) := by omega
    rw [this]

/-- A strict prefix of a brace-closing tail never closes. -/
theorem closes_take_false : ∀ (cs : List Char) (d k : Nat),
    closes cs d = true → k < cs.length → closes (cs.take k) d = false := by
  intro cs
  induction cs with
  | nil =>
    intro d k h hk
    simp at hk
  | cons c tl ih =>
    intro d k h hk
    cases k with
    | zero => rfl
    | succ j =>
      rw [List.take_succ_cons]
      rw [closes] at h ⊢
      by_cases hc : c = '}' ∧ d = 1
      · rw [if_pos hc] at h ⊢
        have htl : tl = [] := by simpa using h
        subst htl
        simp at hk
      · rw [if_neg hc] at h ⊢
        exact ih _ j h (by simpa using hk)

/-- A strict prefix of a complete serialized checkpoint never parses. -/
theorem jsonBalanced_take_false (cs : List Char) (k : Nat)
    (h : jsonBalanced cs = true) (hk : k < cs.length) :
    jsonBalanced (cs.take k) = false := by
  cases cs with
  | nil => simp at hk
  | cons c tl =>
    rw [jsonBalanced, Bool.and_eq_true] at h
    obtain ⟨hc, hcl⟩ := h
    cases k with
    | zero => rfl
    | succ j =>
      rw [List.take_succ_cons, jsonBalanced]
      rw [closes_take_false tl 1 j hcl (by simpa using hk)]
      simp

/-! ## Claims -/

/-- C2 (counterexample): saving a checkpoint is NOT atomic for a reader.
`save_progress` truncates the file in place (`open(..., 'w')`) before
writing, so the crash state where the file has just been truncated (the
empty byte sequence, an element of `saveWriteStates`) parses as neither the
complete previous checkpoint nor the complete new one. -/
theorem c2_checkpoint_counterexample :
    ¬ (∀ s ∈ saveWriteStates ckOldBytes ckNewBytes,
        loadCheckpointBytes s = some ckOldBytes ∨
        loadCheckpointBytes s = some ckNewBytes) := by
  decide

/-- C2 (amended): a crash during `save_progress` can leave a truncated or
partially written file, so a subsequent load observes the complete previous
checkpoint, the complete new one, or null — never a partially written
record presented as a checkpoint, and never a raised error (`load_progress`
catches parse failures). -/
theorem c2_checkpoint_amended (old new s : List Char)
    (hnew : jsonBalanced new = true) (hs : s ∈ saveWriteStates old new) :
    loadCheckpointBytes s = some old ∨ loadCheckpointBytes s = some new ∨
    loadCheckpointBytes s = none := by
  simp only [saveWriteStates, List.mem_cons, List.mem_map, List.mem_range] at hs
  rcases hs with rfl | ⟨j, hj, rfl⟩
  · by_cases h : jsonBalanced s = true
    · left
      simp [loadCheckpointBytes, h]
    · right; right
      simp [loadCheckpointBytes, h]
  · by_cases hjlen : j < new.length
    · right; right
      have hf := jsonBalanced_take_false new j hnew hjlen
      simp [loadCheckpointBytes, hf]
    · right; left
      have hall : new.take j = new := List.take_of_length_le (by omega)
      rw [hall]
      simp [loadCheckpointBytes, hnew]

/-- C2 (witness): the amended statement at the concrete crash state where
the file was just truncated. -/
theorem c2_checkpoint_amended_witness :
    jsonBalanced ckNewBytes = true ∧
    ([] : List Char) ∈ saveWriteStates ckOldBytes ckNewBytes ∧
    (loadCheckpointBytes [] = some ckOldBytes ∨
      loadCheckpointBytes [] = some ckNewBytes ∨ loadCheckpointBytes [] = none) :=
  ⟨by decide, by decide,
    c2_checkpoint_amended ckOldBytes ckNewBytes [] (by decide) (by decide)⟩

/-- C4 (counterexample): under an all-429 resolver, the enriched candidate
does NOT resolve to an `error` result as the claim states: identity
resolution maps the exhausted-retry sentinel to an empty qid list, so the
candidate resolves to `qid_not_found`. -/
theorem c4_429_counterexample :
    (enrich_single_person env429 [personAda] personAda).1.status =
      EnrichStatus.qidNotFound ∧
    EnrichStatus.qidNotFound ≠ EnrichStatus.error := by
  exact ⟨rfl, by decide⟩

/-- C4 (amended): for a query whose every attempt fails with HTTP 429, the
resolver client issues exactly `retries` requests (default 5), then returns
the unavailable sentinel (`None`) instead of raising or looping forever;
the candidate being enriched resolves to a `qid_not_found` failure (a
failed result, not an `error` result). -/
theorem c4_retry_ceiling_amended (resp : Nat → HttpResp) (retries : Nat)
    (h : ∀ i, resp i = HttpResp.httpStatus 429) :
    run_sparql resp retries = (Except.ok none, retries) ∧
    enrich_single_person env429 [personAda] personAda =
      (⟨some "Ada", some 1, EnrichStatus.qidNotFound, none, none, none⟩,
        [personAda]) := by
  constructor
  · rw [run_sparql, runSparqlAux_allTransient resp h retries 0 0]
    simp
  · rfl

/-- C4 (witness): the amended statement at the default retry count. -/
theorem c4_retry_ceiling_witness :
    run_sparql (fun _ => HttpResp.httpStatus 429) 5 = (Except.ok none, 5) :=
  (c4_retry_ceiling_amended (fun _ => HttpResp.httpStatus 429) 5 (fun _ => rfl)).1

/-- C5 (code bug): `enrich_event_by_name` does not select the first key of
the resolved list — it binds the whole list (`qid = get_event_qid_by_name(name)`,
no `[0]`) and persists that list as the event's qid, unlike
`enrich_all_events` in the same file and unlike both person paths. -/
theorem c5_event_key_list_bug :
    enrich_event_by_name envEventQ123 [eventBattle] "Battle" =
      Except.ok
        (⟨EnrichStatus.ok, some "Battle", some (PyVal.strList ["Q123"]), none⟩,
          [{ eventBattle with wikidataQid := some (PyVal.strList ["Q123"]) }]) ∧
    PyVal.strList ["Q123"] ≠ PyVal.str "Q123" := by
  exact ⟨rfl, by decide⟩

/-- C7: any `start` or `resume` call made while the running flag is true
returns the current RunProgress, leaves the progress state unchanged, and
schedules no second background run. -/
theorem c7_single_flight (p : Progress) (tasks : List TaskSpec) (B : Nat)
    (file : FileState) (h : p.running = true) :
    start_fast_enrich_all p tasks B = (StartResp.alreadyRunning p, p, tasks) ∧
    resume_enrichment p tasks B file = (ResumeResp.alreadyRunning p, p, tasks) := by
  constructor
  · simp [start_fast_enrich_all, h]
  · simp [resume_enrichment, h]

/-- C7 (witness): the single-flight guard at a concrete running progress. -/
theorem c7_single_flight_witness :
    ({ initialProgress with running := true } : Progress).running = true ∧
    start_fast_enrich_all { initialProgress with running := true } [] 100 =
      (StartResp.alreadyRunning { initialProgress with running := true },
        { initialProgress with running := true }, []) ∧
    resume_enrichment { initialProgress with running := true } [] 100
        FileState.absent =
      (ResumeResp.alreadyRunning { initialProgress with running := true },
        { initialProgress with running := true }, []) :=
  ⟨rfl, (c7_single_flight _ [] 100 FileState.absent rfl).1,
    (c7_single_flight _ [] 100 FileState.absent rfl).2⟩

/-- C8: when the checkpoint file is absent or unparsable, `load_progress`
returns null (it never raises — the embedding is total), and a subsequent
resume schedules a fresh run from offset 0. -/
theorem c8_load_null_resume_fresh (p : Progress) (tasks : List TaskSpec) (B : Nat)
    (file : FileState) (hrun : p.running = false)
    (hfile : file = FileState.absent ∨ file = FileState.corrupt) :
    load_progress file = none ∧
    resume_enrichment p tasks B file =
      (ResumeResp.resumed 0, p, tasks ++ [⟨B, 0⟩]) := by
  have hl : load_progress file = none := by
    rcases hfile with rfl | rfl <;> rfl
  refine ⟨hl, ?_⟩
  simp [resume_enrichment, hrun, hl]

/-- C8 (witness): resume from a missing checkpoint file. -/
theorem c8_load_null_resume_fresh_witness :
    load_progress FileState.absent = none ∧
    resume_enrichment initialProgress [] 100 FileState.absent =
      (ResumeResp.resumed 0, initialProgress, [⟨100, 0⟩]) := by
  have h := c8_load_null_resume_fresh initialProgress [] 100 FileState.absent rfl
    (Or.inl rfl)
  simpa using h

/-- C10: the `None` sentinel returned by `run_sparql` on retry exhaustion is
handled only by `find_qid_by_label` (mapped to an empty list); the
attribute-fetch helpers evaluate `data.get(...)` on the `None` and raise,
so an outage occurring after identity resolution surfaces to the caller of
`enrich_person_by_name` as a raised exception (which the worker wrapper
then records as an `error` result). -/
theorem c10_sentinel_asymmetry :
    (∀ (env : HttpEnv) (nm : String) (limit : Nat),
        sparqlCall env (SparqlQuery.findQid nm limit) = Except.ok none →
        find_qid_by_label env nm limit = Except.ok []) ∧
    (∀ (env : HttpEnv) (qid : String),
        sparqlCall env (SparqlQuery.personBasic qid) = Except.ok none →
        get_person_basic_by_qid env qid = Except.error PyErr.attributeErrNone) ∧
    (∀ (env : HttpEnv) (qid : String),
        sparqlCall env (SparqlQuery.positions qid) = Except.ok none →
        get_person_positions env qid = Except.error PyErr.attributeErrNone) ∧
    enrich_person_by_name envOutageAfterResolve [personAda] "Ada" =
      Except.error PyErr.attributeErrNone ∧
    (enrich_single_person envOutageAfterResolve [personAda] personAda).1.status =
      EnrichStatus.error := by
  refine ⟨?_, ?_, ?_, rfl, rfl⟩
  · intro env nm limit h
    simp [find_qid_by_label, h]
  · intro env qid h
    simp [get_person_basic_by_qid, fetchBindings, h, Bind.bind, Except.bind]
  · intro env qid h
    simp [get_person_positions, fetchBindings, h, Bind.bind, Except.bind]

/-- C10 (witness): the sentinel-handling asymmetry at concrete inputs. -/
theorem c10_sentinel_asymmetry_witness :
    sparqlCall env429 (SparqlQuery.findQid "Ada" 5) = Except.ok none ∧
    find_qid_by_label env429 "Ada" 5 = Except.ok [] ∧
    get_person_basic_by_qid env429 "Q42" = Except.error PyErr.attributeErrNone ∧
    get_person_positions env429 "Q42" = Except.error PyErr.attributeErrNone :=
  ⟨rfl, c10_sentinel_asymmetry.1 env429 "Ada" 5 rfl,
    c10_sentinel_asymmetry.2.1 env429 "Q42" rfl,
    c10_sentinel_asymmetry.2.2.1 env429 "Q42" rfl⟩

/-- C6: a store connectivity failure while fetching yields the null marker
(never the empty list); on that marker the controller retries the same
offset without advancing, and after the third consecutive failure the run
stops (`maxRetries`) with exactly three fetch attempts logged at that
offset and the checkpoint's `last_offset` still at it (the last
successfully completed boundary); an empty list instead terminates the run
as exhausted. -/
theorem c6_store_failure_retries :
    (∀ (store : List NPerson) (off B : Nat),
        fetch_persons_batch false store off B = none ∧
        fetch_persons_batch false store off B ≠ some []) ∧
    (∀ (total B : Nat) (conn stopObs : Nat → Bool)
        (outcome : NPerson → FutureOutcome) (fuel iter : Nat) (st : LoopState),
        (∀ i, conn i = false) → (∀ i, stopObs i = false) →
        st.offset < total → st.retryCount = 0 →
        (runLoop total B conn stopObs outcome (fuel + 3) iter st).2 =
          ExitReason.maxRetries ∧
        (runLoop total B conn stopObs outcome (fuel + 3) iter st).1.fetchLog =
          st.fetchLog ++ [st.offset, st.offset, st.offset] ∧
        (runLoop total B conn stopObs outcome (fuel + 3) iter st).1.offset =
          st.offset ∧
        (runLoop total B conn stopObs outcome (fuel + 3) iter st).1.submitted =
          st.submitted ∧
        (runLoop total B conn stopObs outcome (fuel + 3) iter st).1.progress.processed
          = st.progress.processed ∧
        (runLoop total B conn stopObs outcome (fuel + 3) iter st).1.progress.lastOffset
          = st.offset ∧
        (runLoop total B conn stopObs outcome (fuel + 3) iter st).1.retryCount = 3) ∧
    (∀ (total B : Nat) (conn stopObs : Nat → Bool)
        (outcome : NPerson → FutureOutcome) (fuel iter : Nat) (st : LoopState),
        stopObs iter = false → st.offset < total → conn st.fetchIdx = true →
        ((st.store.filter eligible).drop st.offset).take B = [] →
        runLoop total B conn stopObs outcome (fuel + 1) iter st =
          ({ noteFetch (saveTop st) with retryCount := 0 }, ExitReason.exhausted)) := by
  refine ⟨?_, ?_, ?_⟩
  · intro store off B
    exact ⟨rfl, by simp [fetch_persons_batch]⟩
  · intro total B conn stopObs outcome fuel iter st hconn hstop hoff hrc0
    rw [show fuel + 3 = fuel + 2 + 1 from rfl,
      runLoop_step_failRetry total B conn stopObs outcome (fuel + 2) iter st
        ⟨hoff, hstop iter⟩
        (show fetch_persons_batch (conn st.fetchIdx) st.store st.offset B = none
          by rw [hconn]; rfl)
        (show ¬ 3 ≤ st.retryCount + 1 by omega)]
    rw [show fuel + 2 = fuel + 1 + 1 from rfl,
      runLoop_step_failRetry total B conn stopObs outcome (fuel + 1) (iter + 1)
        { noteFetch (saveTop st) with retryCount := st.retryCount + 1 }
        ⟨hoff, hstop (iter + 1)⟩
        (show fetch_persons_batch (conn (st.fetchIdx + 1)) st.store st.offset B = none
          by rw [hconn]; rfl)
        (show ¬ 3 ≤ st.retryCount + 1 + 1 by omega)]
    rw [runLoop_step_failBreak total B conn stopObs outcome fuel (iter + 2)
        { noteFetch (saveTop { noteFetch (saveTop st) with
            retryCount := st.retryCount + 1 }) with
          retryCount := st.retryCount + 1 + 1 }
        ⟨hoff, hstop (iter + 2)⟩
        (show fetch_persons_batch (conn (st.fetchIdx + 1 + 1)) st.store st.offset B = none
          by rw [hconn]; rfl)
        (show 3 ≤ st.retryCount + 1 + 1 + 1 by omega)]
    refine ⟨rfl, ?_, rfl, rfl, rfl, rfl,
      show st.retryCount + 1 + 1 + 1 = 3 by omega⟩
    simp [noteFetch, saveTop]
  · intro total B conn stopObs outcome fuel iter st hstop hoff hconn hempty
    have hfetch : fetch_persons_batch (conn st.fetchIdx) st.store st.offset B =
        some [] := by
      rw [hconn]
      simp [fetch_persons_batch, hempty]
    exact runLoop_step_empty total B conn stopObs outcome fuel iter st
      ⟨hoff, hstop⟩ hfetch

/-- C6 (witness): the store-failure behaviour at concrete inputs — three
same-offset fetch attempts then `maxRetries`, and an empty batch exits as
exhausted. -/
theorem c6_store_failure_retries_witness :
    fetch_persons_batch false [personAda] 0 1 = none ∧
    (runLoop 1 1 (fun _ => false) (fun _ => false) allQidNotFoundOutcome (0 + 3) 0
      (freshState initialProgress [personAda] none)).2 = ExitReason.maxRetries ∧
    (runLoop 1 1 (fun _ => false) (fun _ => false) allQidNotFoundOutcome (0 + 3) 0
      (freshState initialProgress [personAda] none)).1.fetchLog = [0, 0, 0] ∧
    runLoop 5 1 (fun _ => true) (fun _ => false) allQidNotFoundOutcome (0 + 1) 0
        (resumeState 2 initialProgress [personAda] none) =
      ({ noteFetch (saveTop (resumeState 2 initialProgress [personAda] none)) with
          retryCount := 0 }, ExitReason.exhausted) := by
  refine ⟨(c6_store_failure_retries.1 [personAda] 0 1).1, ?_, ?_, ?_⟩
  · exact (c6_store_failure_retries.2.1 1 1 (fun _ => false) (fun _ => false)
      allQidNotFoundOutcome 0 0 (freshState initialProgress [personAda] none)
      (fun _ => rfl) (fun _ => rfl) (by decide) rfl).1
  · have h := (c6_store_failure_retries.2.1 1 1 (fun _ => false) (fun _ => false)
      allQidNotFoundOutcome 0 0 (freshState initialProgress [personAda] none)
      (fun _ => rfl) (fun _ => rfl) (by decide) rfl).2.1
    simpa [freshState] using h
  · exact c6_store_failure_retries.2.2 5 1 (fun _ => true) (fun _ => false)
      allQidNotFoundOutcome 0 0 (resumeState 2 initialProgress [personAda] none)
      rfl (by decide) rfl (by decide)

/-- C9: once the operator's stop is observed at the next loop-condition
check, the in-flight batch is never abandoned: every result of the batch
that was being collected is folded into the progress (processed and
succeeded+failed each grow by the full batch length), the checkpoint file
holds the post-batch progress with `last_offset` advanced past the batch,
exactly that batch's fetch (and no later one) is logged, and the controller
exits the loop (stop or natural finish), after which finalisation clears
the running flag. -/
theorem c9_stop_finishes_batch (total B : Nat) (conn stopObs : Nat → Bool)
    (outcome : NPerson → FutureOutcome) (fuel iter : Nat) (st : LoopState)
    (p : NPerson) (ps : List NPerson)
    (hoff : st.offset < total)
    (hstop0 : stopObs iter = false)
    (hstop1 : stopObs (iter + 1) = true)
    (hconn : conn st.fetchIdx = true)
    (hbatch : ((st.store.filter eligible).drop st.offset).take B = p :: ps) :
    ((runLoop total B conn stopObs outcome (fuel + 2) iter st).2 =
        ExitReason.stoppedFlag ∨
      (runLoop total B conn stopObs outcome (fuel + 2) iter st).2 =
        ExitReason.finished) ∧
    (runLoop total B conn stopObs outcome (fuel + 2) iter st).1.fetchLog =
      st.fetchLog ++ [st.offset] ∧
    (runLoop total B conn stopObs outcome (fuel + 2) iter st).1.submitted =
      st.submitted ++ (p :: ps) ∧
    (runLoop total B conn stopObs outcome (fuel + 2) iter st).1.progress.processed =
      st.progress.processed + (p :: ps).length ∧
    (runLoop total B conn stopObs outcome (fuel + 2) iter st).1.progress.success +
        (runLoop total B conn stopObs outcome (fuel + 2) iter st).1.progress.failed =
      st.progress.success + st.progress.failed + (p :: ps).length ∧
    (runLoop total B conn stopObs outcome (fuel + 2) iter st).1.offset =
      st.offset + B ∧
    (runLoop total B conn stopObs outcome (fuel + 2) iter st).1.file =
      some (runLoop total B conn stopObs outcome (fuel + 2) iter st).1.progress ∧
    (runLoop total B conn stopObs outcome (fuel + 2) iter st).1.progress.lastOffset =
      st.offset + B ∧
    (finishRun (runLoop total B conn stopObs outcome (fuel + 2) iter st).1).progress.running
      = false := by
  have hfetch : fetch_persons_batch (conn st.fetchIdx) st.store st.offset B =
      some (p :: ps) := by
    rw [hconn]
    simp [fetch_persons_batch, hbatch]
  rw [show fuel + 2 = fuel + 1 + 1 from rfl,
    runLoop_step_batch total B conn stopObs outcome (fuel + 1) iter st p ps
      ⟨hoff, hstop0⟩ hfetch]
  rw [runLoop_exit total B conn stopObs outcome (fuel + 1) (iter + 1)
    (processBatch outcome B (p :: ps) (noteFetch (saveTop st)))
    (by rw [hstop1]; simp)]
  refine ⟨?_, by simp, by simp, by simp, ?_, by simp, by simp, by simp, rfl⟩
  · by_cases h2 : (processBatch outcome B (p :: ps) (noteFetch (saveTop st))).offset
        < total
    · simp only [processBatch_offset, noteFetch_offset, saveTop_offset] at h2
      left
      simp [h2]
    · simp only [processBatch_offset, noteFetch_offset, saveTop_offset] at h2
      right
      simp [h2]
  · have hsum := processBatch_sum outcome B (p :: ps) (noteFetch (saveTop st))
    simpa using hsum

/-- C9 (witness): the stop-respects-batch property at a concrete one-batch
run. -/
theorem c9_stop_finishes_batch_witness :
    (freshState initialProgress [personAda] none).offset < 1 ∧
    stopAtOne 0 = false ∧ stopAtOne (0 + 1) = true ∧
    (runLoop 1 1 (fun _ => true) stopAtOne allQidNotFoundOutcome (0 + 2) 0
      (freshState initialProgress [personAda] none)).1.submitted = [personAda] ∧
    (runLoop 1 1 (fun _ => true) stopAtOne allQidNotFoundOutcome (0 + 2) 0
      (freshState initialProgress [personAda] none)).1.fetchLog = [0] := by
  have h := c9_stop_finishes_batch 1 1 (fun _ => true) stopAtOne
    allQidNotFoundOutcome 0 0 (freshState initialProgress [personAda] none)
    personAda [] (by decide) rfl rfl rfl (by decide)
  refine ⟨by decide, rfl, rfl, ?_, ?_⟩
  · have h3 := h.2.2.1
    simpa [freshState] using h3
  · have h2 := h.2.1
    simpa [freshState] using h2

/-- C1 (counterexample): a completed full run need not process all N
candidates.  Over N = 2 eligible candidates with batch size 1 where every
enrichment succeeds, the first batch's success removes its candidate from
the `wikidata_qid IS NULL` filter, shifting the pagination: the run
terminates on an empty batch (run complete, one candidate never submitted)
with `processed = 1` while `total = N = 2`. -/
theorem c1_full_run_counterexample :
    (background_enrich_all true (fun _ => true) (fun _ => false) allOkOutcome 1 0
      initialProgress [personAda, personBob] none 10).1.progress.total = 2 ∧
    (background_enrich_all true (fun _ => true) (fun _ => false) allOkOutcome 1 0
      initialProgress [personAda, personBob] none 10).1.progress.processed = 1 ∧
    (background_enrich_all true (fun _ => true) (fun _ => false) allOkOutcome 1 0
      initialProgress [personAda, personBob] none 10).2 = ExitReason.exhausted ∧
    (1 : Nat) ≠ 2 := by
  exact ⟨rfl, rfl, rfl, by decide⟩

/-- C1 (amended): (i) folding any settled future increments `processed` by
one and exactly one of `success`/`failed` by one; hence (ii) after any
fresh-start run, `processed = succeeded + failed`; and (iii) when worker
outcomes leave the candidate filter unchanged (e.g. no candidate succeeds),
a full fresh run processes exactly N = the number of filtered candidates;
runs in which successes shrink the filtered set may complete with
`processed < N` (see the counterexample). -/
theorem c1_counters_amended :
    (∀ (p : Progress) (o : FutureOutcome),
        (foldFuture p o).processed = p.processed + 1 ∧
        (foldFuture p o).success + (foldFuture p o).failed =
          p.success + p.failed + 1 ∧
        (((foldFuture p o).success = p.success + 1 ∧
            (foldFuture p o).failed = p.failed) ∨
          ((foldFuture p o).success = p.success ∧
            (foldFuture p o).failed = p.failed + 1))) ∧
    (∀ (conn stopObs : Nat → Bool) (outcome : NPerson → FutureOutcome)
        (B : Nat) (initProg : Progress) (S : List NPerson)
        (initFile : Option Progress) (fuel : Nat),
        pInv (background_enrich_all true conn stopObs outcome B 0 initProg S
          initFile fuel).1.progress) ∧
    (∀ (S : List NPerson) (outcome : NPerson → FutureOutcome) (B fuel : Nat),
        (∀ s per, applyOutcome s per (outcome per) = s) → 0 < B →
        (S.filter eligible).length ≤ fuel * B →
        (background_enrich_all true (fun _ => true) (fun _ => false) outcome B 0
          initialProgress S none fuel).1.progress.processed =
          (S.filter eligible).length ∧
        (background_enrich_all true (fun _ => true) (fun _ => false) outcome B 0
            initialProgress S none fuel).1.progress.success +
          (background_enrich_all true (fun _ => true) (fun _ => false) outcome B 0
            initialProgress S none fuel).1.progress.failed =
          (S.filter eligible).length ∧
        (background_enrich_all true (fun _ => true) (fun _ => false) outcome B 0
          initialProgress S none fuel).2 = ExitReason.finished) := by
  refine ⟨?_, ?_, ?_⟩
  · intro p o
    exact ⟨foldFuture_processed p o, foldFuture_sum p o, foldFuture_exactlyOne p o⟩
  · intro conn stopObs outcome B initProg S initFile fuel
    rw [background_enrich_all_fresh]
    exact finishRun_pInv _
      (runLoop_pInv _ _ _ _ _ _ _ _ (show (0 : Nat) = 0 + 0 by rfl))
  · intro S outcome B fuel hstatic hB hfuel
    rw [background_enrich_all_fresh]
    obtain ⟨h1, h2, h3, h4, h5⟩ := runLoop_static_noStop B
      (S.filter eligible).length (fun _ => true) (fun _ => false) outcome S
      hstatic (fun _ => rfl) (fun _ => rfl) rfl hB fuel 0
      (freshState initialProgress S none) rfl
      (by simpa [freshState] using hfuel)
    have hproc : (runLoop (S.filter eligible).length B (fun _ => true)
        (fun _ => false) outcome fuel 0
        (freshState initialProgress S none)).1.progress.processed =
        (S.filter eligible).length := by
      rw [h3]
      simp [freshState]
    have hinv := runLoop_pInv (S.filter eligible).length B (fun _ => true)
      (fun _ => false) outcome fuel 0 (freshState initialProgress S none)
      (show (0 : Nat) = 0 + 0 by rfl)
    refine ⟨?_, ?_, h4⟩
    · rw [finishRun_processed]
      exact hproc
    · rw [finishRun_success, finishRun_failed]
      unfold pInv at hinv
      omega

/-- C1 (witness): the amended statement at a concrete static-filter run
(two eligible candidates, every outcome a qid_not_found failure). -/
theorem c1_counters_witness :
    (∀ s per, applyOutcome s per (allQidNotFoundOutcome per) = s) ∧ (0 : Nat) < 1 ∧
    ([personAda, personBob].filter eligible).length ≤ 5 * 1 ∧
    (background_enrich_all true (fun _ => true) (fun _ => false)
      allQidNotFoundOutcome 1 0 initialProgress [personAda, personBob] none
      5).1.progress.processed = ([personAda, personBob].filter eligible).length :=
  ⟨fun s per => rfl, by decide, by decide,
    (c1_counters_amended.2.2 [personAda, personBob] allQidNotFoundOutcome 1 5
      (fun s per => rfl) (by decide) (by decide)).1⟩

/-- C3 (counterexample): resume does not give exactly-once processing over
both runs.  Two eligible candidates, batch size 1, every enrichment
succeeding; the run is stopped after completing batch k = 1 (checkpoint
`last_offset = 1`).  The resumed run reads at offset 1 of the *current*
filtered listing — which has shrunk, because the enriched candidate left
the `wikidata_qid IS NULL` filter — so it fetches nothing and the second
candidate is never processed by either run (a gap). -/
theorem c3_resume_counterexample :
    c3resume.1 = ResumeResp.resumed 1 ∧
    c3task = ⟨1, 1⟩ ∧
    c3run1.1.submitted = [personAda] ∧
    c3run2.1.submitted = [] ∧
    c3run2.1.fetchLog = [] ∧
    personBob ∈ [personAda, personBob].filter eligible ∧
    personBob ∉ c3run1.1.submitted ++ c3run2.1.submitted := by
  exact ⟨rfl, rfl, rfl, rfl, rfl, by decide, by decide⟩

/-- C3 (amended): when a run stopped after completing batch k is resumed,
the checkpoint holds `last_offset = k*B` and the resumed run's first read
starts exactly there; *provided the worker outcomes leave the candidate
filter unchanged* (e.g. no candidate succeeds), the two runs together
submit every filtered candidate exactly once — no gap and no duplicate.
(When successes shrink the filter, candidates can be skipped: see the
counterexample.) -/
theorem c3_resume_amended (S : List NPerson) (outcome : NPerson → FutureOutcome)
    (tasks : List TaskSpec) (B k fuel1 fuel2 : Nat)
    (r1 r2 : LoopState × ExitReason)
    (hstatic : ∀ s per, applyOutcome s per (outcome per) = s)
    (hB : 0 < B) (hk : 0 < k)
    (hkB : k * B < (S.filter eligible).length)
    (hf1 : k ≤ fuel1)
    (hf2 : (S.filter eligible).length ≤ k * B + fuel2 * B)
    (hr1 : r1 = background_enrich_all true (fun _ => true)
      (fun i => decide (k ≤ i)) outcome B 0 initialProgress S none fuel1)
    (hr2 : r2 = background_enrich_all true (fun _ => true) (fun _ => false)
      outcome B (k * B) r1.1.progress r1.1.store r1.1.file fuel2) :
    r1.1.submitted = (S.filter eligible).take (k * B) ∧
    r1.1.progress.lastOffset = k * B ∧
    r1.1.progress.running = false ∧
    r1.1.file = some r1.1.progress ∧
    (resume_enrichment r1.1.progress tasks B (FileState.good r1.1.progress)).1 =
      ResumeResp.resumed (k * B) ∧
    r2.1.submitted = (S.filter eligible).drop (k * B) ∧
    r1.1.submitted ++ r2.1.submitted = S.filter eligible ∧
    (∃ rest, r2.1.fetchLog = (k * B) :: rest) ∧
    r2.2 = ExitReason.finished := by
  obtain ⟨g1, g2, g3, g4, g5, g6⟩ := runLoop_static_stop B
    (S.filter eligible).length (fun _ => true) (fun i => decide (k ≤ i)) outcome
    S k hstatic (fun _ => rfl)
    (by intro i hi; simp only [decide_eq_false_iff_not]; omega)
    (by simp) rfl hB k fuel1 0 (freshState initialProgress S none)
    (by omega) rfl hf1 (by simpa [freshState] using hkB) rfl
  have e1sub : r1.1.submitted = (S.filter eligible).take (k * B) := by
    rw [hr1, background_enrich_all_fresh, finishRun_submitted, g3]
    simp [freshState]
  have e1last : r1.1.progress.lastOffset = k * B := by
    rw [hr1, background_enrich_all_fresh, finishRun_lastOffset, g5]
    simp [freshState]
  have e1run : r1.1.progress.running = false := by
    rw [hr1, background_enrich_all_fresh, finishRun_running]
  have e1file : r1.1.file = some r1.1.progress := by
    rw [hr1, background_enrich_all_fresh, finishRun_file]
  have e1store : r1.1.store = S := by
    rw [hr1, background_enrich_all_fresh, finishRun_store, g1]
  have hkB0 : k * B ≠ 0 := by
    have := Nat.mul_pos hk hB
    omega
  have hr2e : r2 = (finishRun (runLoop (S.filter eligible).length B
      (fun _ => true) (fun _ => false) outcome fuel2 0
      (resumeState (k * B) r1.1.progress S r1.1.file)).1,
      (runLoop (S.filter eligible).length B (fun _ => true) (fun _ => false)
        outcome fuel2 0
        (resumeState (k * B) r1.1.progress S r1.1.file)).2) := by
    rw [hr2, e1store, background_enrich_all_resume _ _ _ _ _ _ _ _ _ hkB0]
  obtain ⟨n1, n2, n3, n4, n5⟩ := runLoop_static_noStop B
    (S.filter eligible).length (fun _ => true) (fun _ => false) outcome S
    hstatic (fun _ => rfl) (fun _ => rfl) rfl hB fuel2 0
    (resumeState (k * B) r1.1.progress S r1.1.file) rfl
    (by simpa [resumeState] using hf2)
  have e2sub : r2.1.submitted = (S.filter eligible).drop (k * B) := by
    rw [hr2e, finishRun_submitted, n2]
    simp [resumeState]
  refine ⟨e1sub, e1last, e1run, e1file, ?_, e2sub, ?_, ?_, ?_⟩
  · simp [resume_enrichment, load_progress, e1run, e1last]
  · rw [e1sub, e2sub]
    exact List.take_append_drop (k * B) (S.filter eligible)
  · obtain ⟨rest, hrest⟩ := n5 (by simpa [resumeState] using hkB)
    refine ⟨rest, ?_⟩
    rw [hr2e, finishRun_fetchLog, hrest]
    simp [resumeState]
  · rw [hr2e]
    exact n4

/-- C3 (witness): the amended resume statement at a concrete two-candidate
run with static outcomes, stopped after batch 1 of size 1. -/
theorem c3_resume_amended_witness :
    (∀ s per, applyOutcome s per (allQidNotFoundOutcome per) = s) ∧
    (0 : Nat) < 1 ∧
    1 * 1 < ([personAda, personBob].filter eligible).length ∧
    ([personAda, personBob].filter eligible).length ≤ 1 * 1 + 5 * 1 ∧
    (background_enrich_all true (fun _ => true) (fun i => decide (1 ≤ i))
        allQidNotFoundOutcome 1 0 initialProgress [personAda, personBob] none
        5).1.submitted =
      ([personAda, personBob].filter eligible).take (1 * 1) :=
  ⟨fun s per => rfl, by decide, by decide, by decide,
    (c3_resume_amended [personAda, personBob] allQidNotFoundOutcome [] 1 1 5 5
      (background_enrich_all true (fun _ => true) (fun i => decide (1 ≤ i))
        allQidNotFoundOutcome 1 0 initialProgress [personAda, personBob] none 5)
      (background_enrich_all true (fun _ => true) (fun _ => false)
        allQidNotFoundOutcome 1 (1 * 1)
        (background_enrich_all true (fun _ => true) (fun i => decide (1 ≤ i))
          allQidNotFoundOutcome 1 0 initialProgress [personAda, personBob] none
          5).1.progress
        (background_enrich_all true (fun _ => true) (fun i => decide (1 ≤ i))
          allQidNotFoundOutcome 1 0 initialProgress [personAda, personBob] none
          5).1.store
        (background_enrich_all true (fun _ => true) (fun i => decide (1 ≤ i))
          allQidNotFoundOutcome 1 0 initialProgress [personAda, personBob] none
          5).1.file 5)
      (fun s per => rfl) (by decide) (by decide) (by decide) (by decide)
      (by decide) rfl rfl).1⟩
